import Mathlib

/-!
# NEC infrared decoder (`IR_Receiver.cpp`): shallow embedding

The decoder keeps its whole state in file-level variables that are mutated by
two interrupt handlers and read by `check_new_packet`.  Here the variables and
the timer registers the code touches are the fields of one record, and every C
function is a pure function on that record.

Machine integers are natural numbers.  An assignment whose right-hand side can
leave the range of the variable's C type is reduced modulo `2^8` or `2^16`;
an assignment between variables of one type is a plain copy.  On the AVR
target `int` is 16 bits wide, so `uint8_t` operands are promoted to `int` and
sums of two bytes never wrap.
-/

namespace IRReceiver

/-! ## Constants -/

/-- CPU frequency in Hz (`#define F_CPU 16000000UL`). -/
abbrev F_CPU : Nat := 16000000

/-- Timer prescaler (`#define TIMER_PRESCALER 64`). -/
abbrev TIMER_PRESCALER : Nat := 64

/-- Timer ticks per millisecond:
`(uint16_t)( F_CPU / ((uint32_t) 1000 * TIMER_PRESCALER))`. -/
abbrev TIMER_COMPARE_VALUE_ONE_MS : Nat := (F_CPU / (1000 * TIMER_PRESCALER)) % 65536

abbrev MAX_DELAY_FOR_NEXT_REPEAT_COMMAND : Nat := 120
abbrev MAX_INITIAL_PULSE_TRANSMISSION_DELAY : Nat := 16
abbrev MAX_BIT_TRANSMISSION_DELAY : Nat := 16

abbrev RECEIVER_STATE_START_REPEAT : Nat := 0
abbrev RECEIVER_STATE_READING : Nat := 1
abbrev RECEIVER_STATE_READY : Nat := 2

abbrev REPEAT_COMMAND_MAX_QTY : Nat := 255
abbrev REPEAT_COMMAND_ALLOWED : Nat := 1
abbrev REPEAT_COMMAND_NOT_ALLOWED : Nat := 0

/-- Number of bits of one frame (`IR_Receiver.h`). -/
abbrev NEC_MAX_PACKET_BIT_NUMBER : Nat := 32

/-- Input pin of the demodulator (`#define IRR_PIN PD2`). -/
abbrev IRR_PIN : Nat := 2

/-! Bit positions inside the Timer1 registers, as `avr/io.h` gives them for the
ATmega328P: `TCCR1B` holds the clock select bits `CS10..CS12` and `WGM12`,
`TIMSK1` holds `OCIE1A`. -/

abbrev CS10 : Nat := 0
abbrev CS11 : Nat := 1
abbrev CS12 : Nat := 2
abbrev WGM12 : Nat := 3
abbrev OCIE1A : Nat := 1

/-! ## State -/

/-- The file-level variables of `IR_Receiver.cpp` together with the Timer1
registers written by `start_ir_timer` and `stop_ir_timer`. -/
structure Receiver where
  receiver_state : Nat
  read_bit_counter : Nat
  rec_addr : Nat
  rec_addr_inv : Nat
  rec_command : Nat
  rec_command_inv : Nat
  rec_repeat : Nat
  rec_ext_addr : Nat
  receiver_allow_repeat : Nat
  pulse_time_counter : Nat
  pause_time_counter : Nat
  TCCR1A : Nat
  TCNT1 : Nat
  OCR1A : Nat
  TCCR1B : Nat
  TIMSK1 : Nat
  deriving DecidableEq, Repr

/-- The packet handed to the application (`struct IR_Packet` of
`IR_Receiver.h`); all five members are `uint8_t`. -/
structure IR_Packet where
  addr : Nat
  addr_inv : Nat
  command : Nat
  command_inv : Nat
  repeat_ : Nat
  deriving DecidableEq, Repr

/-- The variables as the C start-up code leaves them: the explicit
initialisers are all zero and the remaining statics are zero-initialised. -/
def power_on : Receiver :=
  { receiver_state := RECEIVER_STATE_START_REPEAT, read_bit_counter := 0,
    rec_addr := 0, rec_addr_inv := 0, rec_command := 0, rec_command_inv := 0,
    rec_repeat := 0, rec_ext_addr := 0,
    receiver_allow_repeat := REPEAT_COMMAND_NOT_ALLOWED,
    pulse_time_counter := 0, pause_time_counter := 0,
    TCCR1A := 0, TCNT1 := 0, OCR1A := 0, TCCR1B := 0, TIMSK1 := 0 }

/-! ## The functions of `IR_Receiver.cpp` -/

/-- `reset_packet()`. -/
def reset_packet (s : Receiver) : Receiver :=
  { s with
    rec_addr := 0, rec_addr_inv := 0, rec_ext_addr := 0, rec_command := 0,
    rec_command_inv := 0, rec_repeat := 0, read_bit_counter := 0 }

/-- `start_ir_timer(time_ms)`; `time_ms` is a `uint8_t` and the product is
computed in 16-bit unsigned arithmetic. -/
def start_ir_timer (s : Receiver) (time_ms : Nat) : Receiver :=
  { s with
    TCCR1A := 0
    TCNT1 := 0
    OCR1A := (TIMER_COMPARE_VALUE_ONE_MS * time_ms) % 65536
    TCCR1B := (s.TCCR1B ||| (1 <<< WGM12)) ||| ((1 <<< CS10) ||| (1 <<< CS11))
    TIMSK1 := s.TIMSK1 ||| (1 <<< OCIE1A) }

/-- `stop_ir_timer()`: `reg &= ~(1<<b)` on an 8-bit register keeps the low
eight bits except bit `b`. -/
def stop_ir_timer (s : Receiver) : Receiver :=
  { s with
    TCCR1B := ((s.TCCR1B &&& (255 ^^^ (1 <<< CS10))) &&& (255 ^^^ (1 <<< CS11)))
                &&& (255 ^^^ (1 <<< CS12)) }

/-- `reset_ir_receiver()` (the status LED is compiled out). -/
def reset_ir_receiver (s : Receiver) : Receiver :=
  let s1 := stop_ir_timer s
  let s2 := reset_packet s1
  { s2 with
    receiver_state := RECEIVER_STATE_START_REPEAT
    receiver_allow_repeat := REPEAT_COMMAND_NOT_ALLOWED
    pulse_time_counter := 0
    pause_time_counter := 0 }

/-- `on_start_bit()`. -/
def on_start_bit (s : Receiver) : Receiver :=
  { reset_packet s with receiver_state := RECEIVER_STATE_READING }

/-- `on_new_packet_received()`. -/
def on_new_packet_received (s : Receiver) : Receiver :=
  start_ir_timer
    { s with
      receiver_state := RECEIVER_STATE_READY
      read_bit_counter := 0
      receiver_allow_repeat := REPEAT_COMMAND_ALLOWED }
    MAX_DELAY_FOR_NEXT_REPEAT_COMMAND

/-- The `if (bit) { ... }` block of `on_data_bit`: set the bit selected by
`read_bit_counter` in the byte that counter falls into. -/
def store_bit (s : Receiver) : Receiver :=
  if s.read_bit_counter < 8 then
    { s with rec_addr := (s.rec_addr ||| (1 <<< s.read_bit_counter)) % 256 }
  else if s.read_bit_counter ≥ 8 ∧ s.read_bit_counter < 16 then
    { s with rec_addr_inv := (s.rec_addr_inv ||| (1 <<< (s.read_bit_counter - 8))) % 256 }
  else if s.read_bit_counter ≥ 16 ∧ s.read_bit_counter < 24 then
    { s with rec_command := (s.rec_command ||| (1 <<< (s.read_bit_counter - 16))) % 256 }
  else if s.read_bit_counter ≥ 24 then
    { s with rec_command_inv := (s.rec_command_inv ||| (1 <<< (s.read_bit_counter - 24))) % 256 }
  else s

/-- The block of `on_data_bit` run once all 32 bits are read: the command
check, the choice between the standard and the extended address, and either
publication or reset. -/
def check_frame (s : Receiver) : Receiver :=
  if s.rec_command + s.rec_command_inv = 0xFF then
    let invereted_address_pair : Nat := if s.rec_addr + s.rec_addr_inv = 0xFF then 1 else 0
    let s1 :=
      if invereted_address_pair = 0 then
        { s with
          rec_ext_addr := ((s.rec_addr_inv <<< 8) % 65536) ||| s.rec_addr
          rec_addr := 0
          rec_addr_inv := 0 }
      else s
    on_new_packet_received s1
  else
    reset_ir_receiver s

/-- `on_data_bit(bit)`. -/
def on_data_bit (s : Receiver) (bit : Nat) : Receiver :=
  if s.read_bit_counter < NEC_MAX_PACKET_BIT_NUMBER ∧
      s.receiver_state = RECEIVER_STATE_READING then
    let s1 := if bit ≠ 0 then store_bit s else s
    let s2 := { s1 with read_bit_counter := (s1.read_bit_counter + 1) % 256 }
    if s2.read_bit_counter = NEC_MAX_PACKET_BIT_NUMBER then check_frame s2 else s2
  else s

/-- `on_repeat_command()`. -/
def on_repeat_command (s : Receiver) : Receiver :=
  if s.receiver_allow_repeat = REPEAT_COMMAND_ALLOWED ∧
      (s.receiver_state = RECEIVER_STATE_READY ∨
        s.receiver_state = RECEIVER_STATE_START_REPEAT) then
    let s1 :=
      if s.rec_repeat < REPEAT_COMMAND_MAX_QTY then
        { s with rec_repeat := (s.rec_repeat + 1) % 256 }
      else s
    start_ir_timer { s1 with receiver_state := RECEIVER_STATE_READY }
      MAX_DELAY_FOR_NEXT_REPEAT_COMMAND
  else
    reset_ir_receiver s

/-! ### Timing thresholds

`read_chunk` compares the 16-bit counters with products of a decimal literal
and `TIMER_COMPARE_VALUE_ONE_MS`.  `gt_ms c n d` is `c > (n/d) * ticks-per-ms`
over the rationals, written without division; for the literals of the source
(`3.2`, `1.6`, `0.36`, `0.76`, `1.5`, `1.9`) the floating-point product with
250 is the integer the source comments name (800, 400, 90, 190, 375, 475), so
the comparison of an integer counter with it is the one below. -/

/-- `c > (n/d) * TIMER_COMPARE_VALUE_ONE_MS`. -/
def gt_ms (c n d : Nat) : Bool := decide (n * TIMER_COMPARE_VALUE_ONE_MS < c * d)

/-- `c < (n/d) * TIMER_COMPARE_VALUE_ONE_MS`. -/
def lt_ms (c n d : Nat) : Bool := decide (c * d < n * TIMER_COMPARE_VALUE_ONE_MS)

/-- `c <= (n/d) * TIMER_COMPARE_VALUE_ONE_MS`. -/
def le_ms (c n d : Nat) : Bool := decide (c * d ≤ n * TIMER_COMPARE_VALUE_ONE_MS)

/-- `read_chunk()`. -/
def read_chunk (s : Receiver) : Receiver :=
  let s1 :=
    if s.pulse_time_counter > 0 ∧ s.pause_time_counter > 0 then
      if gt_ms s.pulse_time_counter 7 1 ∧ lt_ms s.pulse_time_counter 11 1 then
        if gt_ms s.pause_time_counter 32 10 ∧ lt_ms s.pause_time_counter 6 1 then
          on_start_bit s
        else if gt_ms s.pause_time_counter 16 10 ∧ le_ms s.pause_time_counter 32 10 then
          on_repeat_command s
        else s
      else if gt_ms s.pulse_time_counter 36 100 ∧ lt_ms s.pulse_time_counter 76 100 then
        if gt_ms s.pause_time_counter 15 10 ∧ lt_ms s.pause_time_counter 19 10 then
          on_data_bit s 1
        else if gt_ms s.pause_time_counter 36 100 ∧ lt_ms s.pause_time_counter 76 100 then
          on_data_bit s 0
        else s
      else
        reset_ir_receiver s
    else s
  { s1 with pulse_time_counter := 0, pause_time_counter := 0 }

/-- `check_new_packet(received_packet)`: the return value, the receiver
afterwards and the caller's packet afterwards.  `addr` is a `uint8_t`, so the
16-bit `rec_ext_addr` is converted to eight bits by the assignment. -/
def check_new_packet (s : Receiver) (received_packet : IR_Packet) :
    Nat × Receiver × IR_Packet :=
  if s.receiver_state = RECEIVER_STATE_READY then
    let p1 :=
      if s.rec_ext_addr > 0 then
        { received_packet with addr := s.rec_ext_addr % 256 }
      else
        { received_packet with addr := s.rec_addr }
    let p2 := { p1 with command := s.rec_command, repeat_ := s.rec_repeat }
    (1, { s with receiver_state := RECEIVER_STATE_START_REPEAT }, p2)
  else
    (0, s, received_packet)

/-- `ISR(INT0_vect)`: `pind` is the value read from the pin register and the
field `TCNT1` holds the count the hardware timer has reached when the handler
runs. -/
def INT0_vect (s : Receiver) (pind : Nat) : Receiver :=
  if s.receiver_state = RECEIVER_STATE_READY then s
  else
    let rising_edge := (pind &&& (1 <<< IRR_PIN)) % 256
    if rising_edge = 0 then
      if s.pulse_time_counter = 0 then
        if s.receiver_state = RECEIVER_STATE_READING then
          start_ir_timer s MAX_BIT_TRANSMISSION_DELAY
        else
          start_ir_timer s MAX_INITIAL_PULSE_TRANSMISSION_DELAY
      else
        let s1 := { s with
          pause_time_counter := (s.TCNT1 + 65536 - s.pulse_time_counter) % 65536 }
        let s2 := start_ir_timer s1 MAX_BIT_TRANSMISSION_DELAY
        read_chunk s2
    else
      let s1 := { s with pulse_time_counter := s.TCNT1 }
      if s1.pulse_time_counter = 0 then reset_ir_receiver s1 else s1

/-- `ISR(TIMER1_COMPA_vect)`. -/
def TIMER1_COMPA_vect (s : Receiver) : Receiver :=
  let s1 := stop_ir_timer s
  if s1.receiver_state = RECEIVER_STATE_READY then
    { s1 with receiver_allow_repeat := REPEAT_COMMAND_NOT_ALLOWED }
  else
    reset_ir_receiver s1

/-- `init_receiver()`; the pin set-up of `init_IRR_PIN` touches no variable of
the decoder and no Timer1 register. -/
def init_receiver (s : Receiver) : Receiver :=
  reset_ir_receiver s

/-! ## The symbol a pulse/pause pair is handled as -/

/-- What `read_chunk` calls for one pulse/pause pair: one of the four symbol
handlers, `reset_ir_receiver`, or nothing at all. -/
inductive Handler where
  | start_bit
  | repeat_command
  | data_bit (bit : Nat)
  | reset
  | nothing
  deriving DecidableEq, Repr

/-- The branch of `read_chunk` taken for the counters `pulse` and `pause`:
the same conditions in the same order, with the name of the called function
in place of the call. -/
def chunk_handler (pulse pause : Nat) : Handler :=
  if pulse > 0 ∧ pause > 0 then
    if gt_ms pulse 7 1 ∧ lt_ms pulse 11 1 then
      if gt_ms pause 32 10 ∧ lt_ms pause 6 1 then .start_bit
      else if gt_ms pause 16 10 ∧ le_ms pause 32 10 then .repeat_command
      else .nothing
    else if gt_ms pulse 36 100 ∧ lt_ms pulse 76 100 then
      if gt_ms pause 15 10 ∧ lt_ms pause 19 10 then .data_bit 1
      else if gt_ms pause 36 100 ∧ lt_ms pause 76 100 then .data_bit 0
      else .nothing
    else .reset
  else .nothing

/-- The function a `Handler` names, applied to the receiver. -/
def Handler.run : Handler → Receiver → Receiver
  | .start_bit, s => on_start_bit s
  | .repeat_command, s => on_repeat_command s
  | .data_bit bit, s => on_data_bit s bit
  | .reset, s => reset_ir_receiver s
  | .nothing, s => s

/-- The last two statements of `read_chunk`. -/
def clear_counters (s : Receiver) : Receiver :=
  { s with pulse_time_counter := 0, pause_time_counter := 0 }

/-! ## Vocabulary of the properties -/

/-- No clock source is selected for Timer1 (`CS12..CS10 = 000`): the timer
does not count. -/
def Receiver.timer_stopped (s : Receiver) : Prop :=
  s.TCCR1B &&& ((1 <<< CS10) ||| (1 <<< CS11) ||| (1 <<< CS12)) = 0

instance (s : Receiver) : Decidable s.timer_stopped := by
  unfold Receiver.timer_stopped; infer_instance

/-- The reset state: waiting for a start or repeat symbol, frame bytes,
extended address, repeat counter and bit counter zero, repeat not permitted,
both time counters zero and the timer stopped. -/
def Receiver.IsReset (s : Receiver) : Prop :=
  s.receiver_state = RECEIVER_STATE_START_REPEAT ∧ s.read_bit_counter = 0 ∧
  s.rec_addr = 0 ∧ s.rec_addr_inv = 0 ∧ s.rec_command = 0 ∧ s.rec_command_inv = 0 ∧
  s.rec_repeat = 0 ∧ s.rec_ext_addr = 0 ∧
  s.receiver_allow_repeat = REPEAT_COMMAND_NOT_ALLOWED ∧
  s.pulse_time_counter = 0 ∧ s.pause_time_counter = 0 ∧ s.timer_stopped

instance (s : Receiver) : Decidable s.IsReset := by
  unfold Receiver.IsReset; infer_instance

/-! ## Events and reachable states -/

/-- What can happen to the receiver: `read_chunk` runs on a measured
pulse/pause pair, the timer expires, or the application polls. -/
inductive Event where
  | chunk (pulse pause : Nat)
  | timer
  | poll (pkt : IR_Packet)
  deriving DecidableEq, Repr

/-- `read_chunk` with the two counters holding `pulse` and `pause`. -/
def feed (s : Receiver) (pulse pause : Nat) : Receiver :=
  read_chunk { s with pulse_time_counter := pulse, pause_time_counter := pause }

/-- The receiver after one event. -/
def step (s : Receiver) : Event → Receiver
  | .chunk pulse pause => feed s pulse pause
  | .timer => TIMER1_COMPA_vect s
  | .poll pkt => (check_new_packet s pkt).2.1

/-- The receiver after a sequence of events, oldest first. -/
def run (s : Receiver) (events : List Event) : Receiver :=
  events.foldl step s

/-- A state the receiver can be in: some sequence of events after a reset. -/
def Reachable (s : Receiver) : Prop :=
  ∃ (s0 : Receiver) (events : List Event), s = run (reset_ir_receiver s0) events

/-- The command bytes pass the check whenever a packet is published, or was
published and may still be re-published by a repeat command. -/
def CommandChecked (s : Receiver) : Prop :=
  (s.receiver_state = RECEIVER_STATE_READY ∨
    (s.receiver_state = RECEIVER_STATE_START_REPEAT ∧
      s.receiver_allow_repeat = REPEAT_COMMAND_ALLOWED)) →
  s.rec_command + s.rec_command_inv = 0xFF

/-! ## Frames as a transmitter sends them

Durations are in timer ticks (250 per millisecond): the start symbol is a
9 ms pulse and a 4.5 ms pause, every data bit a 560 µs pulse followed by a
1.69 ms pause for a 1 and a 560 µs pause for a 0. -/

/-- `read_chunk` on the pulse/pause pair of one data bit. -/
def feed_bit (s : Receiver) (b : Bool) : Receiver :=
  feed s 140 (if b then 422 else 140)

/-- The eight bits of a byte, least significant first. -/
def byte_bits (x : Nat) : List Bool :=
  [x.testBit 0, x.testBit 1, x.testBit 2, x.testBit 3,
   x.testBit 4, x.testBit 5, x.testBit 6, x.testBit 7]

/-- The 32 data bits of a frame made of four bytes, in transmission order. -/
def frame_bits (b0 b1 b2 b3 : Nat) : List Bool :=
  byte_bits b0 ++ (byte_bits b1 ++ (byte_bits b2 ++ byte_bits b3))

/-- `read_chunk` on a sequence of data bits. -/
def feed_bits (s : Receiver) (bits : List Bool) : Receiver :=
  bits.foldl feed_bit s

/-- `read_chunk` on the start symbol and then on the 32 bits of four bytes. -/
def feed_frame (s : Receiver) (b0 b1 b2 b3 : Nat) : Receiver :=
  feed_bits (feed s 2250 1125) (frame_bits b0 b1 b2 b3)

/-- The same frame as a list of events. -/
def frame_events (b0 b1 b2 b3 : Nat) : List Event :=
  .chunk 2250 1125 ::
    (frame_bits b0 b1 b2 b3).map (fun b => Event.chunk 140 (if b then 422 else 140))

/-- The bitwise complement of a byte. -/
def complement (x : Nat) : Nat := x ^^^ 0xFF

/-- The receiver `k` bits into a frame with the four frame bytes holding
`a`, `b`, `c`, `d`; what `on_start_bit` and `read_chunk` do not touch is taken
from `base`. -/
def reading_at (base : Receiver) (k a b c d : Nat) : Receiver :=
  { base with
    receiver_state := RECEIVER_STATE_READING
    read_bit_counter := k
    rec_addr := a
    rec_addr_inv := b
    rec_command := c
    rec_command_inv := d
    rec_repeat := 0
    rec_ext_addr := 0
    pulse_time_counter := 0
    pause_time_counter := 0 }

/-- Bit `i` of the byte `v` after a data bit: set for a 1, untouched for a 0. -/
def set_bit (v i : Nat) (bit : Bool) : Nat :=
  if bit then (v ||| (1 <<< i)) % 256 else v

/-- A byte assembled from the bits of `x`, least significant first, starting
from 0. -/
def assemble (x : Nat) : Nat :=
  set_bit (set_bit (set_bit (set_bit (set_bit (set_bit (set_bit (set_bit 0
    0 (x.testBit 0)) 1 (x.testBit 1)) 2 (x.testBit 2)) 3 (x.testBit 3))
    4 (x.testBit 4)) 5 (x.testBit 5)) 6 (x.testBit 6)) 7 (x.testBit 7)

/-! ## Interrupts -/

/-- The two interrupt sources: an edge on the input pin, seen with the pin
register reading `pind` while the hardware timer has counted to `tcnt`, and
the compare match of the timer. -/
inductive Interrupt where
  | edge (pind tcnt : Nat)
  | timer
  deriving DecidableEq, Repr

/-- The receiver after one interrupt has been served. -/
def interrupt (s : Receiver) : Interrupt → Receiver
  | .edge pind tcnt => INT0_vect { s with TCNT1 := tcnt } pind
  | .timer => TIMER1_COMPA_vect s

/-- The receiver after a sequence of interrupts, oldest first. -/
def interrupts (s : Receiver) (irqs : List Interrupt) : Receiver :=
  irqs.foldl interrupt s

/-! ## Timer and bit index -/

/-- Timer1 as `start_ir_timer(time_ms)` programs it: counting from 0 with the
prescaler 64 (`CS12..CS10 = 011`) in CTC mode (`WGM12` set, `TCCR1A` zero)
towards the compare value of `time_ms` milliseconds, with the compare
interrupt enabled. -/
def Receiver.timer_armed (s : Receiver) (time_ms : Nat) : Prop :=
  s.TCCR1A = 0 ∧ s.TCNT1 = 0 ∧
  s.OCR1A = TIMER_COMPARE_VALUE_ONE_MS * time_ms ∧
  s.TCCR1B &&& ((1 <<< CS10) ||| (1 <<< CS11) ||| (1 <<< CS12)) =
    (1 <<< CS10) ||| (1 <<< CS11) ∧
  s.TCCR1B &&& (1 <<< WGM12) = 1 <<< WGM12 ∧
  s.TIMSK1 &&& (1 <<< OCIE1A) = 1 <<< OCIE1A

instance (s : Receiver) (time_ms : Nat) : Decidable (s.timer_armed time_ms) := by
  unfold Receiver.timer_armed; infer_instance

/-- The shift amount `store_bit` uses for the current bit index: the index
itself, or the index less 8, 16 or 24, by the same case distinction. -/
def shift_amount (s : Receiver) : Nat :=
  if s.read_bit_counter < 8 then s.read_bit_counter
  else if s.read_bit_counter ≥ 8 ∧ s.read_bit_counter < 16 then s.read_bit_counter - 8
  else if s.read_bit_counter ≥ 16 ∧ s.read_bit_counter < 24 then s.read_bit_counter - 16
  else if s.read_bit_counter ≥ 24 then s.read_bit_counter - 24
  else 0

/-- What holds in every state the receiver can be in: the bit index is at
most 31 and is 0 outside `READING`, the repeat counter is 0 while `READING`,
and `TCCR1B` is an 8-bit value with `CS12` clear. -/
def Receiver.Consistent (s : Receiver) : Prop :=
  s.read_bit_counter ≤ 31 ∧
  (s.receiver_state ≠ RECEIVER_STATE_READING → s.read_bit_counter = 0) ∧
  (s.receiver_state = RECEIVER_STATE_READING → s.rec_repeat = 0) ∧
  s.TCCR1B < 256 ∧
  s.TCCR1B &&& (1 <<< CS12) = 0

/-- The state right after a publication: repeat counter 0, repeat permitted,
bit index 0 and the timer armed for the repeat window of 120 ms. -/
def Receiver.Published (s : Receiver) : Prop :=
  s.rec_repeat = 0 ∧ s.receiver_allow_repeat = REPEAT_COMMAND_ALLOWED ∧
  s.read_bit_counter = 0 ∧ s.timer_armed MAX_DELAY_FOR_NEXT_REPEAT_COMMAND

instance (s : Receiver) : Decidable s.Published := by
  unfold Receiver.Published; infer_instance

/-! ## The older variant, `IR_Reciever.cpp`

The repository holds a second decoder with the same function names.  It keeps
the frame in one `IR_Packet`, has a fourth state `READ`, accepts only frames
whose address bytes are complements, and its `read_chunk` neither resets the
receiver nor zeroes the time counters.  Its constants for the timer ticks and
its timing windows are those of `IR_Receiver.cpp`. -/

namespace IR_Reciever

abbrev MAX_DELAY_FOR_REPEAT_COMMAND : Nat := 100
abbrev MAX_BIT_TRANSMISSION_DELAY : Nat := 16

abbrev PACKET_STATE_NO_PACKET : Nat := 0
abbrev PACKET_STATE_READING : Nat := 1
abbrev PACKET_STATE_READY : Nat := 2
abbrev PACKET_STATE_READ : Nat := 3

/-- The file-level variables of `IR_Reciever.cpp` together with the Timer1
registers it writes. -/
structure State where
  packet_reading_state : Nat
  read_bit_counter : Nat
  packet : IR_Packet
  pulse_time_counter : Nat
  pause_time_counter : Nat
  TCCR1A : Nat
  TCNT1 : Nat
  OCR1A : Nat
  TCCR1B : Nat
  TIMSK1 : Nat
  deriving DecidableEq, Repr

/-- The variables as the C start-up code leaves them. -/
def power_on : State :=
  { packet_reading_state := PACKET_STATE_NO_PACKET, read_bit_counter := 0,
    packet := { addr := 0, addr_inv := 0, command := 0, command_inv := 0, repeat_ := 0 },
    pulse_time_counter := 0, pause_time_counter := 0,
    TCCR1A := 0, TCNT1 := 0, OCR1A := 0, TCCR1B := 0, TIMSK1 := 0 }

/-- `reset_packet()`; in this variant it also sets the state to `NO_PACKET`. -/
def reset_packet (s : State) : State :=
  { s with
    packet := { addr := 0, addr_inv := 0, command := 0, command_inv := 0, repeat_ := 0 }
    read_bit_counter := 0
    packet_reading_state := PACKET_STATE_NO_PACKET }

/-- `start_IR_timer(time_ms)`. -/
def start_IR_timer (s : State) (time_ms : Nat) : State :=
  { s with
    TCCR1A := 0
    TCNT1 := 0
    OCR1A := (TIMER_COMPARE_VALUE_ONE_MS * time_ms) % 65536
    TCCR1B := (s.TCCR1B ||| (1 <<< WGM12)) ||| ((1 <<< CS10) ||| (1 <<< CS11))
    TIMSK1 := s.TIMSK1 ||| (1 <<< OCIE1A) }

/-- `stop_IR_timer()`. -/
def stop_IR_timer (s : State) : State :=
  { s with
    TCCR1B := ((s.TCCR1B &&& (255 ^^^ (1 <<< CS10))) &&& (255 ^^^ (1 <<< CS11)))
                &&& (255 ^^^ (1 <<< CS12)) }

/-- `reset_IR_receiver()` (the status LED is compiled out). -/
def reset_IR_receiver (s : State) : State :=
  let s1 := stop_IR_timer s
  let s2 := reset_packet s1
  { s2 with pulse_time_counter := 0, pause_time_counter := 0 }

/-- `on_start_bit()`. -/
def on_start_bit (s : State) : State :=
  { reset_packet s with packet_reading_state := PACKET_STATE_READING }

/-- `on_new_packet_received()`. -/
def on_new_packet_received (s : State) : State :=
  start_IR_timer { s with packet_reading_state := PACKET_STATE_READY }
    MAX_DELAY_FOR_REPEAT_COMMAND

/-- The `if (bit) { ... }` block of `on_data_bit`. -/
def store_bit (s : State) : State :=
  if s.read_bit_counter < 8 then
    { s with packet := { s.packet with
        addr := (s.packet.addr ||| (1 <<< s.read_bit_counter)) % 256 } }
  else if s.read_bit_counter ≥ 8 ∧ s.read_bit_counter < 16 then
    { s with packet := { s.packet with
        addr_inv := (s.packet.addr_inv ||| (1 <<< (s.read_bit_counter - 8))) % 256 } }
  else if s.read_bit_counter ≥ 16 ∧ s.read_bit_counter < 24 then
    { s with packet := { s.packet with
        command := (s.packet.command ||| (1 <<< (s.read_bit_counter - 16))) % 256 } }
  else if s.read_bit_counter ≥ 24 then
    { s with packet := { s.packet with
        command_inv := (s.packet.command_inv ||| (1 <<< (s.read_bit_counter - 24))) % 256 } }
  else s

/-- `on_data_bit(bit)`: once 32 bits are read the packet is published only if
both byte pairs add up to `0xFF`; otherwise nothing more happens. -/
def on_data_bit (s : State) (bit : Nat) : State :=
  if s.read_bit_counter < NEC_MAX_PACKET_BIT_NUMBER ∧
      s.packet_reading_state = PACKET_STATE_READING then
    let s1 := if bit ≠ 0 then store_bit s else s
    let s2 := { s1 with read_bit_counter := (s1.read_bit_counter + 1) % 256 }
    if s2.read_bit_counter = NEC_MAX_PACKET_BIT_NUMBER then
      if s2.packet.addr + s2.packet.addr_inv = 0xFF ∧
          s2.packet.command + s2.packet.command_inv = 0xFF then
        on_new_packet_received s2
      else s2
    else s2
  else s

/-- `on_repeat_command()`. -/
def on_repeat_command (s : State) : State :=
  if s.packet_reading_state = PACKET_STATE_READY ∨
      s.packet_reading_state = PACKET_STATE_READ then
    let s1 :=
      if s.packet.repeat_ < 255 then
        { s with packet := { s.packet with repeat_ := (s.packet.repeat_ + 1) % 256 } }
      else s
    start_IR_timer { s1 with packet_reading_state := PACKET_STATE_READY }
      MAX_DELAY_FOR_REPEAT_COMMAND
  else
    reset_packet (reset_IR_receiver s)

/-- `read_chunk()`: the windows of `IR_Receiver.cpp`, without the final reset
and without zeroing the counters. -/
def read_chunk (s : State) : State :=
  if s.pulse_time_counter > 0 ∧ s.pause_time_counter > 0 then
    if gt_ms s.pulse_time_counter 7 1 ∧ lt_ms s.pulse_time_counter 11 1 then
      if gt_ms s.pause_time_counter 32 10 ∧ lt_ms s.pause_time_counter 6 1 then
        on_start_bit s
      else if gt_ms s.pause_time_counter 16 10 ∧ le_ms s.pause_time_counter 32 10 then
        on_repeat_command s
      else s
    else if gt_ms s.pulse_time_counter 36 100 ∧ lt_ms s.pulse_time_counter 76 100 then
      if gt_ms s.pause_time_counter 15 10 ∧ lt_ms s.pause_time_counter 19 10 then
        on_data_bit s 1
      else if gt_ms s.pause_time_counter 36 100 ∧ lt_ms s.pause_time_counter 76 100 then
        on_data_bit s 0
      else s
    else s
  else s

/-- `check_new_packet(received_packet)`: the return value, the decoder
afterwards and the caller's packet afterwards; all five members are copied. -/
def check_new_packet (s : State) (received_packet : IR_Packet) :
    Nat × State × IR_Packet :=
  if s.packet_reading_state = PACKET_STATE_READY then
    let s1 := { s with packet_reading_state := PACKET_STATE_READ }
    let p1 : IR_Packet :=
      { received_packet with
        addr := s1.packet.addr
        addr_inv := s1.packet.addr_inv
        command := s1.packet.command
        command_inv := s1.packet.command_inv
        repeat_ := s1.packet.repeat_ }
    (1, s1, p1)
  else
    (0, s, received_packet)

/-- `ISR(INT0_vect)`; the field `TCNT1` holds the count the hardware timer has
reached when the handler runs. -/
def INT0_vect (s : State) (pind : Nat) : State :=
  let rising_edge := (pind &&& (1 <<< IRR_PIN)) % 256
  if rising_edge ≠ 0 then
    { s with pulse_time_counter := s.TCNT1, TCNT1 := 0 }
  else if s.pulse_time_counter = 0 then
    start_IR_timer s MAX_BIT_TRANSMISSION_DELAY
  else
    let s1 := { s with pause_time_counter := s.TCNT1, TCNT1 := 0 }
    let s2 := read_chunk s1
    { s2 with pulse_time_counter := 0, pause_time_counter := 0 }

/-- `ISR(TIMER1_COMPA_vect)`. -/
def TIMER1_COMPA_vect (s : State) : State :=
  reset_IR_receiver s

/-- `init_receiver()`. -/
def init_receiver (s : State) : State :=
  reset_packet (reset_IR_receiver s)

/-- `read_chunk` with the two counters holding `pulse` and `pause`. -/
def feed (s : State) (pulse pause : Nat) : State :=
  read_chunk { s with pulse_time_counter := pulse, pause_time_counter := pause }

/-- `read_chunk` on the pulse/pause pair of one data bit. -/
def feed_bit (s : State) (b : Bool) : State :=
  feed s 140 (if b then 422 else 140)

/-- `read_chunk` on a sequence of data bits. -/
def feed_bits (s : State) (bits : List Bool) : State :=
  bits.foldl feed_bit s

/-- `read_chunk` on the start symbol and then on the 32 bits of four bytes. -/
def feed_frame (s : State) (b0 b1 b2 b3 : Nat) : State :=
  feed_bits (feed s 2250 1125) (frame_bits b0 b1 b2 b3)

/-- The decoder `k` bits into a frame with the four frame bytes holding `a`,
`b`, `c`, `d` and the time counters holding the last pair. -/
def reading_at (base : State) (k a b c d pulse pause : Nat) : State :=
  { base with
    packet_reading_state := PACKET_STATE_READING
    read_bit_counter := k
    packet := { addr := a, addr_inv := b, command := c, command_inv := d, repeat_ := 0 }
    pulse_time_counter := pulse
    pause_time_counter := pause }

end IR_Reciever

/-! ## Theorems -/

/-- `read_chunk` runs the handler `chunk_handler` selects and then zeroes the
two counters. -/
theorem read_chunk_eq_run (s : Receiver) :
    read_chunk s =
      clear_counters ((chunk_handler s.pulse_time_counter s.pause_time_counter).run s) := by
  unfold read_chunk chunk_handler clear_counters
  split_ifs <;> rfl

/-- The start window of `chunk_handler`, in ticks. -/
theorem start_window_ticks (p q : Nat) :
    chunk_handler p q = .start_bit ↔ (1750 < p ∧ p < 2750) ∧ (800 < q ∧ q < 1500) := by
  unfold chunk_handler gt_ms lt_ms le_ms
  simp only [decide_eq_true_eq, TIMER_COMPARE_VALUE_ONE_MS, F_CPU, TIMER_PRESCALER]
  norm_num
  split_ifs <;> simp <;> omega

/-- The two data-bit windows of `chunk_handler`, in ticks. -/
theorem data_windows_ticks (p q : Nat) :
    (chunk_handler p q = .data_bit 1 ↔ (90 < p ∧ p < 190) ∧ (375 < q ∧ q < 475)) ∧
    (chunk_handler p q = .data_bit 0 ↔ (90 < p ∧ p < 190) ∧ (90 < q ∧ q < 190)) := by
  unfold chunk_handler gt_ms lt_ms le_ms
  simp only [decide_eq_true_eq, TIMER_COMPARE_VALUE_ONE_MS, F_CPU, TIMER_PRESCALER]
  norm_num
  refine ⟨?_, ?_⟩ <;> split_ifs <;> simp <;> omega

/-- Outside both pulse windows a positive pair is answered by a reset. -/
theorem classifier_reset (p q : Nat) (hp : 0 < p) (hq : 0 < q)
    (h1 : ¬ (1750 < p ∧ p < 2750)) (h2 : ¬ (90 < p ∧ p < 190)) :
    chunk_handler p q = .reset := by
  unfold chunk_handler gt_ms lt_ms le_ms
  simp only [decide_eq_true_eq, TIMER_COMPARE_VALUE_ONE_MS, F_CPU, TIMER_PRESCALER]
  norm_num
  split_ifs <;> first | rfl | omega

/-- A positive pair whose pulse lies in a pulse window and whose pause lies in
none of that pulse's pause windows calls no handler. -/
theorem classifier_nothing (p q : Nat)
    (h : ((1750 < p ∧ p < 2750) ∧ ¬ (400 < q ∧ q < 1500)) ∨
      ((90 < p ∧ p < 190) ∧ ¬ (375 < q ∧ q < 475) ∧ ¬ (90 < q ∧ q < 190))) :
    chunk_handler p q = .nothing := by
  unfold chunk_handler gt_ms lt_ms le_ms
  simp only [decide_eq_true_eq, TIMER_COMPARE_VALUE_ONE_MS, F_CPU, TIMER_PRESCALER]
  norm_num
  split_ifs <;> intros <;> first | rfl | omega

/-- C2, classifier correctness: `read_chunk` applies to the receiver the
handler chosen from its pulse and pause counters, and for all counter values
that handler is `on_start_bit` exactly when `1750 < p < 2750` and
`800 < q < 1500`, `on_repeat_command` exactly when `1750 < p < 2750` and
`400 < q <= 800`, `on_data_bit(1)` exactly when `90 < p < 190` and
`375 < q < 475`, `on_data_bit(0)` exactly when `90 < p < 190` and
`90 < q < 190`; in every other case none of the four is called (the receiver
is reset or left alone). -/
theorem classifier_windows (s : Receiver) (p q : Nat) :
    read_chunk { s with pulse_time_counter := p, pause_time_counter := q } =
        clear_counters ((chunk_handler p q).run
          { s with pulse_time_counter := p, pause_time_counter := q }) ∧
    (chunk_handler p q = .start_bit ↔ (1750 < p ∧ p < 2750) ∧ (800 < q ∧ q < 1500)) ∧
    (chunk_handler p q = .repeat_command ↔ (1750 < p ∧ p < 2750) ∧ (400 < q ∧ q ≤ 800)) ∧
    (chunk_handler p q = .data_bit 1 ↔ (90 < p ∧ p < 190) ∧ (375 < q ∧ q < 475)) ∧
    (chunk_handler p q = .data_bit 0 ↔ (90 < p ∧ p < 190) ∧ (90 < q ∧ q < 190)) ∧
    (¬ ((1750 < p ∧ p < 2750) ∧ (800 < q ∧ q < 1500)) →
      ¬ ((1750 < p ∧ p < 2750) ∧ (400 < q ∧ q ≤ 800)) →
      ¬ ((90 < p ∧ p < 190) ∧ (375 < q ∧ q < 475)) →
      ¬ ((90 < p ∧ p < 190) ∧ (90 < q ∧ q < 190)) →
      chunk_handler p q = .reset ∨ chunk_handler p q = .nothing) := by
  refine ⟨read_chunk_eq_run _, ?_⟩
  unfold chunk_handler gt_ms lt_ms le_ms
  simp only [decide_eq_true_eq, TIMER_COMPARE_VALUE_ONE_MS, F_CPU, TIMER_PRESCALER]
  norm_num
  refine ⟨?_, ?_, ?_, ?_, ?_⟩ <;> split_ifs <;> simp <;> omega

/-! ### Reset -/

/-- Clearing `CS10`, `CS11` and `CS12` one after the other leaves none of the
three set, whatever the register held. -/
theorem clock_bits_cleared (x : Nat) :
    ((x &&& (255 ^^^ (1 <<< CS10))) &&& (255 ^^^ (1 <<< CS11)) &&& (255 ^^^ (1 <<< CS12)))
      &&& ((1 <<< CS10) ||| (1 <<< CS11) ||| (1 <<< CS12)) = 0 := by
  simp only [Nat.and_assoc]
  have h : (255 ^^^ (1 <<< CS10)) &&& ((255 ^^^ (1 <<< CS11)) &&&
      ((255 ^^^ (1 <<< CS12)) &&& ((1 <<< CS10) ||| (1 <<< CS11) ||| (1 <<< CS12)))) = 0 := by
    decide
  rw [h, Nat.and_zero]

/-- `reset_ir_receiver` ends in the reset state from every state. -/
theorem reset_ir_receiver_isReset (s : Receiver) : (reset_ir_receiver s).IsReset := by
  simp only [Receiver.IsReset, Receiver.timer_stopped, reset_ir_receiver, reset_packet,
    stop_ir_timer, true_and]
  exact clock_bits_cleared s.TCCR1B

/-! ### `check_new_packet` -/

/-- What `check_new_packet` does in every state with a packet ready. -/
theorem check_new_packet_of_ready (s : Receiver) (pkt : IR_Packet)
    (h : s.receiver_state = RECEIVER_STATE_READY) :
    check_new_packet s pkt =
      (1, { s with receiver_state := RECEIVER_STATE_START_REPEAT },
        { pkt with
          addr := if s.rec_ext_addr > 0 then s.rec_ext_addr % 256 else s.rec_addr
          command := s.rec_command
          repeat_ := s.rec_repeat }) := by
  unfold check_new_packet
  rw [if_pos h]
  split_ifs <;> rfl

/-- What `check_new_packet` does in every state without a packet ready. -/
theorem check_new_packet_of_not_ready (s : Receiver) (pkt : IR_Packet)
    (h : s.receiver_state ≠ RECEIVER_STATE_READY) :
    check_new_packet s pkt = (0, s, pkt) := by
  unfold check_new_packet
  rw [if_neg h]

/-- A state with an extended-address packet ready, used as a concrete input. -/
def ready_sample : Receiver :=
  { power_on with
    receiver_state := RECEIVER_STATE_READY
    rec_command := 0x10
    rec_command_inv := 0xEF
    rec_repeat := 3
    rec_ext_addr := 0x0734
    receiver_allow_repeat := REPEAT_COMMAND_ALLOWED }

/-- A caller's packet with recognisable contents. -/
def stale_packet : IR_Packet :=
  { addr := 0xAA, addr_inv := 0xBB, command := 0xCC, command_inv := 0xDD, repeat_ := 0xEE }

/-- C6, `check_new_packet` with nothing ready: in every state with
`receiver_state != READY` and for every caller packet the call returns 0 and
leaves the whole receiver and the whole packet as they were. -/
theorem check_new_packet_not_ready (s : Receiver) (pkt : IR_Packet)
    (h : s.receiver_state ≠ RECEIVER_STATE_READY) :
    (check_new_packet s pkt).1 = 0 ∧ (check_new_packet s pkt).2.1 = s ∧
    (check_new_packet s pkt).2.2 = pkt := by
  rw [check_new_packet_of_not_ready s pkt h]
  exact ⟨rfl, rfl, rfl⟩

/-- C6 in the power-on state, which is not `READY`: the call returns 0 and
changes neither the receiver nor the packet. -/
theorem check_new_packet_not_ready_witness :
    power_on.receiver_state ≠ RECEIVER_STATE_READY ∧
    (check_new_packet power_on stale_packet).1 = 0 ∧
    (check_new_packet power_on stale_packet).2.1 = power_on ∧
    (check_new_packet power_on stale_packet).2.2 = stale_packet :=
  ⟨by decide, check_new_packet_not_ready power_on stale_packet (by decide)⟩

/-- C7, idempotent read: for every receiver state and any two caller packets,
two calls of `check_new_packet` in a row do not both return 1; when the first
returns 1 the second returns 0; and the second call changes neither the
receiver nor the packet it is given. -/
theorem check_new_packet_twice (s : Receiver) (pkt pkt2 : IR_Packet) :
    ¬ ((check_new_packet s pkt).1 = 1 ∧
        (check_new_packet (check_new_packet s pkt).2.1 pkt2).1 = 1) ∧
    ((check_new_packet s pkt).1 = 1 →
        (check_new_packet (check_new_packet s pkt).2.1 pkt2).1 = 0) ∧
    (check_new_packet (check_new_packet s pkt).2.1 pkt2).2.1 = (check_new_packet s pkt).2.1 ∧
    (check_new_packet (check_new_packet s pkt).2.1 pkt2).2.2 = pkt2 := by
  by_cases h : s.receiver_state = RECEIVER_STATE_READY
  · rw [check_new_packet_of_ready s pkt h]
    rw [check_new_packet_of_not_ready _ pkt2 (by simp)]
    simp
  · rw [check_new_packet_of_not_ready s pkt h]
    rw [check_new_packet_of_not_ready s pkt2 h]
    simp

/-! ### Checksum failure -/

/-- A state one bit short of a complete frame whose command bytes `0x10` and
`0x6F` cannot add up to `0xFF` after a final 0 bit. -/
def last_bit_sample : Receiver :=
  { power_on with
    receiver_state := RECEIVER_STATE_READING
    read_bit_counter := 31
    rec_addr := 0x12
    rec_addr_inv := 0xED
    rec_command := 0x10
    rec_command_inv := 0x6F
    receiver_allow_repeat := REPEAT_COMMAND_ALLOWED
    TCCR1B := 0x0B }

/-- C4, checksum failure resets: in every state that is `READING` with
`read_bit_counter = 31`, when the final data bit (which, if it is a 1, sets
bit 7 of `rec_command_inv`) leaves `rec_command + rec_command_inv != 0xFF`,
`on_data_bit` ends in the reset state (`START_REPEAT`, frame bytes, extended
address, repeat counter and bit counter zero, repeat permission cleared,
timer stopped), and a following `check_new_packet` returns 0 and changes
nothing. -/
theorem checksum_failure_resets (s : Receiver) (bit : Nat) (pkt : IR_Packet)
    (hst : s.receiver_state = RECEIVER_STATE_READING)
    (hcnt : s.read_bit_counter = 31)
    (hsum : s.rec_command +
        (if bit ≠ 0 then (s.rec_command_inv ||| (1 <<< 7)) % 256 else s.rec_command_inv)
          ≠ 0xFF) :
    (on_data_bit s bit).IsReset ∧
    check_new_packet (on_data_bit s bit) pkt = (0, on_data_bit s bit, pkt) := by
  have hreset : ∃ s0, on_data_bit s bit = reset_ir_receiver s0 := by
    unfold on_data_bit
    rw [if_pos ⟨by rw [hcnt]; decide, hst⟩]
    by_cases hb : bit = 0
    · subst hb
      simp only [ne_eq, not_true_eq_false, if_false, hcnt] at hsum ⊢
      simp only [Nat.reduceAdd, Nat.reduceMod, if_true, check_frame]
      rw [if_neg hsum]
      exact ⟨_, rfl⟩
    · simp only [ne_eq, hb, not_false_eq_true, if_true] at hsum ⊢
      have hs : store_bit s =
          { s with rec_command_inv := (s.rec_command_inv ||| (1 <<< 7)) % 256 } := by
        unfold store_bit
        simp [hcnt]
      rw [hs]
      simp only [hcnt, Nat.reduceAdd, Nat.reduceMod, if_true, check_frame]
      rw [if_neg hsum]
      exact ⟨_, rfl⟩
  obtain ⟨s0, h0⟩ := hreset
  have hr : (on_data_bit s bit).IsReset := h0 ▸ reset_ir_receiver_isReset s0
  refine ⟨hr, check_new_packet_of_not_ready _ _ ?_⟩
  rw [hr.1]
  decide

/-- C4 at `last_bit_sample` with a final 0 bit: `0x10 + 0x6F` is not `0xFF`,
so the receiver is reset and the poll returns 0. -/
theorem checksum_failure_resets_witness :
    last_bit_sample.receiver_state = RECEIVER_STATE_READING ∧
    last_bit_sample.read_bit_counter = 31 ∧
    (on_data_bit last_bit_sample 0).IsReset ∧
    check_new_packet (on_data_bit last_bit_sample 0) stale_packet =
      (0, on_data_bit last_bit_sample 0, stale_packet) :=
  ⟨rfl, rfl, checksum_failure_resets last_bit_sample 0 stale_packet rfl rfl (by decide)⟩

/-! ### Repeat command -/

/-- `on_repeat_command` when repeat is permitted and a packet is ready. -/
theorem on_repeat_command_of_ready (s : Receiver)
    (hst : s.receiver_state = RECEIVER_STATE_READY)
    (hal : s.receiver_allow_repeat = REPEAT_COMMAND_ALLOWED)
    (hr : s.rec_repeat ≤ 255) :
    (on_repeat_command s).receiver_state = RECEIVER_STATE_READY ∧
    (on_repeat_command s).receiver_allow_repeat = REPEAT_COMMAND_ALLOWED ∧
    (on_repeat_command s).rec_repeat = min (s.rec_repeat + 1) 255 := by
  unfold on_repeat_command
  rw [if_pos ⟨hal, Or.inl hst⟩]
  by_cases h : s.rec_repeat < REPEAT_COMMAND_MAX_QTY
  · rw [if_pos h]
    have h2 : s.rec_repeat < 255 := h
    refine ⟨rfl, hal, ?_⟩
    show (s.rec_repeat + 1) % 256 = min (s.rec_repeat + 1) 255
    omega
  · rw [if_neg h]
    have h2 : ¬ s.rec_repeat < 255 := h
    refine ⟨rfl, hal, ?_⟩
    show s.rec_repeat = min (s.rec_repeat + 1) 255
    omega

/-- C9, repeat saturation: from every state that is `READY` with repeat
permitted and `rec_repeat = r` (a byte), `n` applications of
`on_repeat_command` leave the state `READY` with
`rec_repeat = min(r + n, 255)`; the counter never falls below `r`, so it does
not wrap. -/
theorem repeat_saturation (n : Nat) (s : Receiver)
    (hst : s.receiver_state = RECEIVER_STATE_READY)
    (hal : s.receiver_allow_repeat = REPEAT_COMMAND_ALLOWED)
    (hr : s.rec_repeat ≤ 255) :
    (Nat.iterate on_repeat_command n s).rec_repeat = min (s.rec_repeat + n) 255 ∧
    (Nat.iterate on_repeat_command n s).receiver_state = RECEIVER_STATE_READY ∧
    s.rec_repeat ≤ (Nat.iterate on_repeat_command n s).rec_repeat := by
  induction n generalizing s with
  | zero =>
    refine ⟨?_, hst, le_refl _⟩
    show s.rec_repeat = min (s.rec_repeat + 0) 255
    omega
  | succ k ih =>
    obtain ⟨h1, h2, h3⟩ := on_repeat_command_of_ready s hst hal hr
    have h4 : (on_repeat_command s).rec_repeat ≤ 255 := by omega
    obtain ⟨i1, i2, i3⟩ := ih (on_repeat_command s) h1 h2 h4
    rw [Function.iterate_succ_apply]
    refine ⟨?_, i2, ?_⟩
    · rw [i1, h3]; omega
    · rw [i1, h3]; omega

/-- C9 at a ready packet with `rec_repeat = 0`: 300 repeat commands give
exactly 255. -/
theorem repeat_saturation_witness :
    (Nat.iterate on_repeat_command 300
      { ready_sample with rec_repeat := 0 }).rec_repeat = 255 ∧
    (Nat.iterate on_repeat_command 300
      { ready_sample with rec_repeat := 0 }).receiver_state = RECEIVER_STATE_READY :=
  have h := repeat_saturation 300 { ready_sample with rec_repeat := 0 } rfl rfl (by decide)
  ⟨h.1.trans (by decide), h.2.1⟩

/-- C10, repeat gating: in every state in which repeat is not permitted,
`on_repeat_command` does what `reset_ir_receiver` does: the receiver ends in
the reset state, so it is not `READY`, and `rec_repeat` is 0 rather than one
more than before. -/
theorem repeat_gating (s : Receiver)
    (h : s.receiver_allow_repeat = REPEAT_COMMAND_NOT_ALLOWED) :
    on_repeat_command s = reset_ir_receiver s ∧
    (on_repeat_command s).IsReset ∧
    (on_repeat_command s).receiver_state ≠ RECEIVER_STATE_READY ∧
    (on_repeat_command s).rec_repeat = 0 ∧
    (on_repeat_command s).rec_repeat ≠ s.rec_repeat + 1 := by
  have e : on_repeat_command s = reset_ir_receiver s := by
    unfold on_repeat_command
    rw [if_neg]
    rw [h]
    simp
  have hr := reset_ir_receiver_isReset s
  rw [e]
  refine ⟨rfl, hr, ?_, hr.2.2.2.2.2.2.1, ?_⟩
  · rw [hr.1]; decide
  · rw [hr.2.2.2.2.2.2.1]; omega

/-- C10 in the reset state reached from power-on, before any packet: a repeat
marker leaves the receiver reset and `rec_repeat` at 0. -/
theorem repeat_gating_witness :
    (reset_ir_receiver power_on).receiver_allow_repeat = REPEAT_COMMAND_NOT_ALLOWED ∧
    (on_repeat_command (reset_ir_receiver power_on)).IsReset ∧
    (on_repeat_command (reset_ir_receiver power_on)).rec_repeat = 0 :=
  have h := repeat_gating (reset_ir_receiver power_on) rfl
  ⟨rfl, h.2.1, h.2.2.2.1⟩

/-! ### The command check holds in every published packet -/

theorem commandChecked_of_reading (s : Receiver)
    (h : s.receiver_state = RECEIVER_STATE_READING) : CommandChecked s := by
  intro h1
  rw [h] at h1
  rcases h1 with h1 | ⟨h1, _⟩ <;> exact absurd h1 (by decide)

theorem commandChecked_reset (s : Receiver) : CommandChecked (reset_ir_receiver s) := by
  intro h1
  simp [reset_ir_receiver] at h1

theorem store_bit_receiver_state (s : Receiver) :
    (store_bit s).receiver_state = s.receiver_state := by
  unfold store_bit
  split_ifs <;> rfl

theorem commandChecked_check_frame (s : Receiver) : CommandChecked (check_frame s) := by
  unfold check_frame
  by_cases h : s.rec_command + s.rec_command_inv = 0xFF
  · rw [if_pos h]
    intro _
    by_cases ha : s.rec_addr + s.rec_addr_inv = 0xFF
    · simpa [ha, on_new_packet_received, start_ir_timer] using h
    · simpa [ha, on_new_packet_received, start_ir_timer] using h
  · rw [if_neg h]
    exact commandChecked_reset s

theorem commandChecked_on_data_bit (s : Receiver) (bit : Nat) (h : CommandChecked s) :
    CommandChecked (on_data_bit s bit) := by
  unfold on_data_bit
  by_cases g : s.read_bit_counter < NEC_MAX_PACKET_BIT_NUMBER ∧
      s.receiver_state = RECEIVER_STATE_READING
  · rw [if_pos g]
    have hs1 : (if bit ≠ 0 then store_bit s else s).receiver_state =
        RECEIVER_STATE_READING := by
      split_ifs
      · rw [store_bit_receiver_state]; exact g.2
      · exact g.2
    generalize (if bit ≠ 0 then store_bit s else s) = s1 at hs1 ⊢
    simp only
    split_ifs
    · exact commandChecked_check_frame _
    · exact commandChecked_of_reading _ hs1
  · rw [if_neg g]
    exact h

theorem commandChecked_on_repeat_command (s : Receiver) (h : CommandChecked s) :
    CommandChecked (on_repeat_command s) := by
  unfold on_repeat_command
  split_ifs with g h1
  · intro _
    have e := h (g.2.elim Or.inl (fun h2 => Or.inr ⟨h2, g.1⟩))
    simpa [start_ir_timer] using e
  · intro _
    have e := h (g.2.elim Or.inl (fun h2 => Or.inr ⟨h2, g.1⟩))
    simpa [start_ir_timer] using e
  · exact commandChecked_reset s

theorem commandChecked_handler (k : Handler) (s : Receiver) (h : CommandChecked s) :
    CommandChecked (k.run s) := by
  cases k with
  | start_bit => exact commandChecked_of_reading _ rfl
  | repeat_command => exact commandChecked_on_repeat_command s h
  | data_bit bit => exact commandChecked_on_data_bit s bit h
  | reset => exact commandChecked_reset s
  | nothing => exact h

theorem commandChecked_feed (s : Receiver) (pulse pause : Nat) (h : CommandChecked s) :
    CommandChecked (feed s pulse pause) := by
  unfold feed
  rw [read_chunk_eq_run]
  exact commandChecked_handler _ _ h

theorem commandChecked_timer (s : Receiver) (h : CommandChecked s) :
    CommandChecked (TIMER1_COMPA_vect s) := by
  unfold TIMER1_COMPA_vect
  simp only
  split_ifs with g
  · intro _
    exact h (Or.inl g)
  · exact commandChecked_reset _

theorem commandChecked_poll (s : Receiver) (pkt : IR_Packet) (h : CommandChecked s) :
    CommandChecked (check_new_packet s pkt).2.1 := by
  by_cases g : s.receiver_state = RECEIVER_STATE_READY
  · rw [check_new_packet_of_ready s pkt g]
    intro _
    exact h (Or.inl g)
  · rw [check_new_packet_of_not_ready s pkt g]
    exact h

theorem commandChecked_step (s : Receiver) (e : Event) (h : CommandChecked s) :
    CommandChecked (step s e) := by
  cases e with
  | chunk pulse pause => exact commandChecked_feed s pulse pause h
  | timer => exact commandChecked_timer s h
  | poll pkt => exact commandChecked_poll s pkt h

theorem commandChecked_run (events : List Event) (s : Receiver) (h : CommandChecked s) :
    CommandChecked (run s events) := by
  induction events generalizing s with
  | nil => exact h
  | cons e rest ih => exact ih (step s e) (commandChecked_step s e h)

theorem commandChecked_of_reachable (s : Receiver) (h : Reachable s) : CommandChecked s := by
  obtain ⟨s0, events, rfl⟩ := h
  exact commandChecked_run events _ (commandChecked_reset s0)

/-! ### Decoding a frame -/

set_option maxRecDepth 100000 in
/-- Assembling a byte from its own bits gives the byte back. -/
theorem assemble_eq : ∀ x, x < 256 → assemble x = x := by
  decide

set_option maxRecDepth 100000 in
/-- The complement of a byte is what is missing to `0xFF`. -/
theorem complement_eq : ∀ x, x < 256 → complement x = 255 - x := by
  decide

/-- The start symbol puts the receiver at bit 0 of an empty frame. -/
theorem feed_start (s : Receiver) : feed s 2250 1125 = reading_at s 0 0 0 0 0 := by
  have h : chunk_handler 2250 1125 = .start_bit := by decide
  unfold feed
  rw [read_chunk_eq_run]
  simp only [h]
  rfl

/-- A data bit is handled by `on_data_bit`, with argument 1 for the long pause
and 0 for the short one. -/
theorem feed_bit_eq (s : Receiver) (bit : Bool) :
    feed_bit s bit =
      clear_counters (on_data_bit
        { s with pulse_time_counter := 140, pause_time_counter := if bit then 422 else 140 }
        (if bit then 1 else 0)) := by
  have h1 : chunk_handler 140 422 = .data_bit 1 := by decide
  have h0 : chunk_handler 140 140 = .data_bit 0 := by decide
  unfold feed_bit feed
  rw [read_chunk_eq_run]
  cases bit
  · simp only [h0]; rfl
  · simp only [h1]; rfl

/-- One data bit before the last: the bit goes into the byte its index
selects and the index advances. -/
theorem feed_bit_reading_at (base : Receiver) (k a b c d : Nat) (bit : Bool)
    (hk : k < 31) :
    feed_bit (reading_at base k a b c d) bit =
      reading_at base (k + 1)
        (if k < 8 then set_bit a k bit else a)
        (if 8 ≤ k ∧ k < 16 then set_bit b (k - 8) bit else b)
        (if 16 ≤ k ∧ k < 24 then set_bit c (k - 16) bit else c)
        (if 24 ≤ k then set_bit d (k - 24) bit else d) := by
  have h1 : k < 32 := by omega
  have h2 : (k + 1) % 256 = k + 1 := by omega
  have h3 : k + 1 ≠ 32 := by omega
  cases bit
  · simp [feed_bit_eq, clear_counters, on_data_bit, reading_at, set_bit,
      h1, h2, h3]
  · by_cases c1 : k < 8
    · have c2 : ¬ 8 ≤ k := by omega
      have c3 : ¬ 16 ≤ k := by omega
      have c4 : ¬ 24 ≤ k := by omega
      simp [feed_bit_eq, clear_counters, on_data_bit, store_bit,
        reading_at, set_bit, h1, h2, h3, c1, c2, c3, c4]
    · by_cases c2 : k < 16
      · have c3 : ¬ 16 ≤ k := by omega
        have c4 : ¬ 24 ≤ k := by omega
        have c5 : 8 ≤ k := by omega
        simp [feed_bit_eq, clear_counters, on_data_bit, store_bit,
          reading_at, set_bit, h1, h2, h3, c1, c2, c3, c4, c5]
      · by_cases c3 : k < 24
        · have c4 : ¬ 24 ≤ k := by omega
          have c5 : 8 ≤ k := by omega
          have c6 : 16 ≤ k := by omega
          simp [feed_bit_eq, clear_counters, on_data_bit, store_bit,
            reading_at, set_bit, h1, h2, h3, c1, c2, c3, c4, c5, c6]
        · have c5 : 8 ≤ k := by omega
          have c6 : 16 ≤ k := by omega
          have c7 : 24 ≤ k := by omega
          simp [feed_bit_eq, clear_counters, on_data_bit, store_bit,
            reading_at, set_bit, h1, h2, h3, c1, c2, c3, c5, c6, c7]

/-- The last data bit of a frame: bit 7 of the inverted command is stored and
the frame is checked. -/
theorem feed_bit_last (base : Receiver) (a b c d : Nat) (bit : Bool) :
    feed_bit (reading_at base 31 a b c d) bit =
      clear_counters (check_frame
        { reading_at base 32 a b c (set_bit d 7 bit) with
          pulse_time_counter := 140
          pause_time_counter := if bit then 422 else 140 }) := by
  cases bit
  · simp [feed_bit_eq, on_data_bit, reading_at, set_bit]
  · simp [feed_bit_eq, on_data_bit, store_bit, reading_at, set_bit]

/-- A start symbol followed by the 32 bits of four bytes: the bytes are
assembled into the four frame variables and the frame is checked. -/
theorem feed_frame_eq (s : Receiver) (b0 b1 b2 b3 : Nat) :
    feed_frame s b0 b1 b2 b3 =
      clear_counters (check_frame
        { reading_at s 32 (assemble b0) (assemble b1) (assemble b2) (assemble b3) with
          pulse_time_counter := 140
          pause_time_counter := if b3.testBit 7 then 422 else 140 }) := by
  simp only [feed_frame, frame_bits, byte_bits, feed_bits, List.cons_append, List.nil_append,
    List.foldl_cons, List.foldl_nil, feed_start]
  simp only [feed_bit_reading_at, Nat.reduceLT, Nat.reduceLeDiff, Nat.reduceAdd, Nat.reduceSub,
    if_true, if_false, and_true, and_false, true_and, false_and, Nat.lt_irrefl, Nat.le_refl]
  rw [feed_bit_last]
  rfl

/-- The frame check when both the command pair and the address pair add up to
`0xFF`: the frame is published as it is. -/
theorem check_frame_standard (s : Receiver)
    (hc : s.rec_command + s.rec_command_inv = 0xFF)
    (ha : s.rec_addr + s.rec_addr_inv = 0xFF) :
    check_frame s = on_new_packet_received s := by
  unfold check_frame
  rw [if_pos hc]
  simp [ha]

/-- The frame check when the command pair adds up to `0xFF` and the address
pair does not: the two address bytes become the extended address. -/
theorem check_frame_extended (s : Receiver)
    (hc : s.rec_command + s.rec_command_inv = 0xFF)
    (ha : s.rec_addr + s.rec_addr_inv ≠ 0xFF) :
    check_frame s =
      on_new_packet_received
        { s with
          rec_ext_addr := ((s.rec_addr_inv <<< 8) % 65536) ||| s.rec_addr
          rec_addr := 0
          rec_addr_inv := 0 } := by
  unfold check_frame
  rw [if_pos hc]
  simp [ha]

/-- The low byte of the extended address is the first address byte. -/
theorem ext_addr_low_byte (a b : Nat) (ha : a < 256) (hb : b < 256) :
    ((b <<< 8) % 65536 ||| a) = 256 * b + a := by
  have h1 : b <<< 8 = 256 * b := by rw [Nat.shiftLeft_eq]; omega
  have h2 : (256 * b) % 65536 = 256 * b := by omega
  rw [h1, h2]
  exact (Nat.mul_add_lt_is_or (i := 8) ha b).symm

/-- C1, end-to-end decode of a standard frame: for all bytes `a` and `c`,
from the reset state, `read_chunk` on the start timing (pulse 2250, pause
1125) and then on the 32 bits of `a`, `~a`, `c`, `~c`, least significant bit
first, with pulse 140 and pause 422 for a 1 and pause 140 for a 0, leaves the
receiver `READY`; `check_new_packet` then returns 1 with `addr = a`,
`command = c` and `repeat = 0`. -/
theorem decode_standard_frame (s0 : Receiver) (pkt : IR_Packet) (a c : Nat)
    (ha : a < 256) (hc : c < 256) :
    (feed_frame (reset_ir_receiver s0) a (complement a) c (complement c)).receiver_state =
      RECEIVER_STATE_READY ∧
    (check_new_packet
      (feed_frame (reset_ir_receiver s0) a (complement a) c (complement c)) pkt).1 = 1 ∧
    (check_new_packet
      (feed_frame (reset_ir_receiver s0) a (complement a) c (complement c)) pkt).2.2 =
        { pkt with addr := a, command := c, repeat_ := 0 } := by
  have hca : complement a < 256 := by rw [complement_eq a ha]; omega
  have hcc : complement c < 256 := by rw [complement_eq c hc]; omega
  rw [feed_frame_eq, assemble_eq a ha, assemble_eq c hc, assemble_eq _ hca, assemble_eq _ hcc,
    check_frame_standard _ (by show c + complement c = 255; rw [complement_eq c hc]; omega)
      (by show a + complement a = 255; rw [complement_eq a ha]; omega)]
  refine ⟨rfl, ?_, ?_⟩
  · rw [check_new_packet_of_ready _ _ rfl]
  · rw [check_new_packet_of_ready _ _ rfl]
    rfl

/-- C1 for address `0x00` and command `0x10`, the scenario of the
specification: the frame `00 FF 10 EF` is decoded to address 0, command
`0x10`, repeat 0. -/
theorem decode_standard_frame_witness :
    (complement 0x00 = 0xFF ∧ complement 0x10 = 0xEF) ∧
    (feed_frame (reset_ir_receiver power_on) 0x00 (complement 0x00) 0x10
      (complement 0x10)).receiver_state = RECEIVER_STATE_READY ∧
    (check_new_packet
      (feed_frame (reset_ir_receiver power_on) 0x00 (complement 0x00) 0x10
        (complement 0x10)) stale_packet).1 = 1 ∧
    (check_new_packet
      (feed_frame (reset_ir_receiver power_on) 0x00 (complement 0x00) 0x10
        (complement 0x10)) stale_packet).2.2 =
        { stale_packet with addr := 0x00, command := 0x10, repeat_ := 0 } :=
  ⟨by decide, decode_standard_frame power_on stale_packet 0x00 0x10 (by decide) (by decide)⟩

/-! ### Extended addresses -/

/-- An extended frame, for all bytes: after the start symbol and the 32 bits
of `a`, `b`, `c`, `~c` with `a + b != 0xFF` the receiver is `READY` and holds
the 16-bit address `256 * b + a` in `rec_ext_addr`, while the packet handed
out by `check_new_packet` carries only `a` in its 8-bit `addr`. -/
theorem extended_frame_decoded (s0 : Receiver) (pkt : IR_Packet) (a b c : Nat)
    (ha : a < 256) (hb : b < 256) (hc : c < 256) (hab : a + b ≠ 0xFF) :
    (feed_frame (reset_ir_receiver s0) a b c (complement c)).receiver_state =
      RECEIVER_STATE_READY ∧
    (feed_frame (reset_ir_receiver s0) a b c (complement c)).rec_ext_addr = 256 * b + a ∧
    (check_new_packet (feed_frame (reset_ir_receiver s0) a b c (complement c)) pkt).1 = 1 ∧
    (check_new_packet (feed_frame (reset_ir_receiver s0) a b c (complement c)) pkt).2.2 =
      { pkt with addr := a, command := c, repeat_ := 0 } := by
  have hcc : complement c < 256 := by rw [complement_eq c hc]; omega
  rw [feed_frame_eq, assemble_eq a ha, assemble_eq b hb, assemble_eq c hc, assemble_eq _ hcc,
    check_frame_extended _ (by show c + complement c = 255; rw [complement_eq c hc]; omega)
      (by show a + b ≠ 255; exact hab)]
  have he : ((b <<< 8) % 65536 ||| a) = 256 * b + a := ext_addr_low_byte a b ha hb
  refine ⟨rfl, he, ?_, ?_⟩
  · rw [check_new_packet_of_ready _ _ rfl]
  · rw [check_new_packet_of_ready _ _ rfl]
    show ({ pkt with
      addr := if ((b <<< 8) % 65536 ||| a) > 0 then ((b <<< 8) % 65536 ||| a) % 256 else 0
      command := c, repeat_ := 0 } : IR_Packet) = { pkt with addr := a, command := c, repeat_ := 0 }
    rw [he]
    have : (if 256 * b + a > 0 then (256 * b + a) % 256 else 0) = a := by
      split_ifs <;> omega
    rw [this]

set_option maxRecDepth 100000 in
/-- C8 at `a = 0x34`, `b = 0x12`, `c = 0x10`: the receiver is `READY` and
stores the extended address `0x1234`, `check_new_packet` returns 1, and the
packet's `addr` is `0x34`, not `0x1234`. -/
theorem extended_address_truncated :
    (feed_frame (reset_ir_receiver power_on) 0x34 0x12 0x10 0xEF).receiver_state =
      RECEIVER_STATE_READY ∧
    (feed_frame (reset_ir_receiver power_on) 0x34 0x12 0x10 0xEF).rec_ext_addr = 0x1234 ∧
    (check_new_packet
      (feed_frame (reset_ir_receiver power_on) 0x34 0x12 0x10 0xEF) stale_packet).1 = 1 ∧
    (check_new_packet
      (feed_frame (reset_ir_receiver power_on) 0x34 0x12 0x10 0xEF) stale_packet).2.2.addr =
        0x34 ∧
    (check_new_packet
      (feed_frame (reset_ir_receiver power_on) 0x34 0x12 0x10 0xEF) stale_packet).2.2.addr ≠
        (0x12 <<< 8) ||| 0x34 := by
  decide

set_option maxRecDepth 100000 in
/-- C5 at the state reached from reset by the extended frame `CD AB 45 BA`:
the state is `READY` and stores the address `0xABCD`; `check_new_packet`
returns 1, writes `rec_command` and `rec_repeat` into the packet, sets
`receiver_state` to `START_REPEAT` and changes no other receiver variable, but
the packet's `addr` receives `0xCD`, which is not the stored address. -/
theorem check_new_packet_ready_extended :
    (feed_frame (reset_ir_receiver power_on) 0xCD 0xAB 0x45 0xBA).receiver_state =
      RECEIVER_STATE_READY ∧
    (feed_frame (reset_ir_receiver power_on) 0xCD 0xAB 0x45 0xBA).rec_ext_addr = 0xABCD ∧
    (check_new_packet
      (feed_frame (reset_ir_receiver power_on) 0xCD 0xAB 0x45 0xBA) stale_packet).1 = 1 ∧
    (check_new_packet
      (feed_frame (reset_ir_receiver power_on) 0xCD 0xAB 0x45 0xBA) stale_packet).2.1 =
      { feed_frame (reset_ir_receiver power_on) 0xCD 0xAB 0x45 0xBA with
        receiver_state := RECEIVER_STATE_START_REPEAT } ∧
    (check_new_packet
      (feed_frame (reset_ir_receiver power_on) 0xCD 0xAB 0x45 0xBA) stale_packet).2.2.command =
      (feed_frame (reset_ir_receiver power_on) 0xCD 0xAB 0x45 0xBA).rec_command ∧
    (check_new_packet
      (feed_frame (reset_ir_receiver power_on) 0xCD 0xAB 0x45 0xBA) stale_packet).2.2.repeat_ =
      (feed_frame (reset_ir_receiver power_on) 0xCD 0xAB 0x45 0xBA).rec_repeat ∧
    (check_new_packet
      (feed_frame (reset_ir_receiver power_on) 0xCD 0xAB 0x45 0xBA) stale_packet).2.2.addr =
      0xCD ∧
    (check_new_packet
      (feed_frame (reset_ir_receiver power_on) 0xCD 0xAB 0x45 0xBA) stale_packet).2.2.addr ≠
      (feed_frame (reset_ir_receiver power_on) 0xCD 0xAB 0x45 0xBA).rec_ext_addr := by
  decide

/-! ### Checksum invariant -/

/-- C3, checksum invariant: in every state reachable from the reset state by
`read_chunk` calls with arbitrary pulse and pause values, timer expiries and
`check_new_packet` calls, `receiver_state == READY` implies
`rec_command + rec_command_inv == 0xFF`; so whenever `check_new_packet`
returns 1, the command it hands out belongs to a pair that passes the check. -/
theorem checksum_invariant (s : Receiver) (h : Reachable s) :
    (s.receiver_state = RECEIVER_STATE_READY → s.rec_command + s.rec_command_inv = 0xFF) ∧
    (∀ pkt : IR_Packet, (check_new_packet s pkt).1 = 1 →
      s.rec_command + s.rec_command_inv = 0xFF ∧
      (check_new_packet s pkt).2.2.command = s.rec_command) := by
  have inv := commandChecked_of_reachable s h
  refine ⟨fun hr => inv (Or.inl hr), fun pkt h1 => ?_⟩
  by_cases g : s.receiver_state = RECEIVER_STATE_READY
  · refine ⟨inv (Or.inl g), ?_⟩
    rw [check_new_packet_of_ready s pkt g]
  · rw [check_new_packet_of_not_ready s pkt g] at h1
    exact absurd h1 Nat.zero_ne_one

set_option maxRecDepth 100000 in
/-- C3 at the state reached from reset by the frame `00 FF 10 EF`: it is
reachable and `READY`, and its command bytes add up to `0xFF`. -/
theorem checksum_invariant_witness :
    Reachable (run (reset_ir_receiver power_on) (frame_events 0x00 0xFF 0x10 0xEF)) ∧
    (run (reset_ir_receiver power_on) (frame_events 0x00 0xFF 0x10 0xEF)).receiver_state =
      RECEIVER_STATE_READY ∧
    (run (reset_ir_receiver power_on) (frame_events 0x00 0xFF 0x10 0xEF)).rec_command +
      (run (reset_ir_receiver power_on) (frame_events 0x00 0xFF 0x10 0xEF)).rec_command_inv =
      0xFF :=
  ⟨⟨power_on, _, rfl⟩, by decide,
    (checksum_invariant _ ⟨power_on, frame_events 0x00 0xFF 0x10 0xEF, rfl⟩).1 (by decide)⟩

/-! ### Reset is idempotent -/

/-- Clearing the three clock select bits a second time changes nothing. -/
theorem clock_bits_cleared_twice (x : Nat) :
    (((x &&& (255 ^^^ (1 <<< CS10))) &&& (255 ^^^ (1 <<< CS11)) &&& (255 ^^^ (1 <<< CS12)))
        &&& (255 ^^^ (1 <<< CS10))) &&& (255 ^^^ (1 <<< CS11)) &&& (255 ^^^ (1 <<< CS12)) =
      (x &&& (255 ^^^ (1 <<< CS10))) &&& (255 ^^^ (1 <<< CS11)) &&& (255 ^^^ (1 <<< CS12)) := by
  simp only [Nat.and_assoc]
  have h : (255 ^^^ (1 <<< CS10)) &&& ((255 ^^^ (1 <<< CS11)) &&& ((255 ^^^ (1 <<< CS12)) &&&
      ((255 ^^^ (1 <<< CS10)) &&& ((255 ^^^ (1 <<< CS11)) &&& (255 ^^^ (1 <<< CS12)))))) =
      (255 ^^^ (1 <<< CS10)) &&& ((255 ^^^ (1 <<< CS11)) &&& (255 ^^^ (1 <<< CS12))) := by
    decide
  rw [h]

/-- C12, reset is idempotent and total: from every receiver state
`reset_ir_receiver` ends in the reset state (`START_REPEAT`, the four frame
bytes, `rec_repeat`, `rec_ext_addr` and `read_bit_counter` zero, repeat
permission cleared, pulse and pause counters zero, timer clock bits cleared),
so any two results agree on every variable of the decoder; applying it twice
gives the same state as applying it once; and `init_receiver` ends in that
state too. -/
theorem reset_idempotent (s s2 : Receiver) :
    (reset_ir_receiver s).IsReset ∧
    { reset_ir_receiver s with
        TCCR1A := 0, TCNT1 := 0, OCR1A := 0, TCCR1B := 0, TIMSK1 := 0 } =
      { reset_ir_receiver s2 with
        TCCR1A := 0, TCNT1 := 0, OCR1A := 0, TCCR1B := 0, TIMSK1 := 0 } ∧
    reset_ir_receiver (reset_ir_receiver s) = reset_ir_receiver s ∧
    init_receiver s = reset_ir_receiver s ∧
    (init_receiver s).IsReset := by
  refine ⟨reset_ir_receiver_isReset s, rfl, ?_, rfl, reset_ir_receiver_isReset s⟩
  simp only [reset_ir_receiver, reset_packet, stop_ir_timer]
  rw [clock_bits_cleared_twice]

/-! ### Timer expiry -/

/-- C13, watchdog expiry: in every state with `receiver_state == READY` the
handler `TIMER1_COMPA_vect` only stops the timer and clears the repeat
permission, so `receiver_state`, the stored address (`rec_addr`,
`rec_ext_addr`), `rec_command` and `rec_repeat` are unchanged; in every state
with `receiver_state` `START_REPEAT` or `READING` it leaves the receiver in
the reset state. -/
theorem timer_expiry (s : Receiver) :
    (s.receiver_state = RECEIVER_STATE_READY →
      TIMER1_COMPA_vect s =
        { stop_ir_timer s with receiver_allow_repeat := REPEAT_COMMAND_NOT_ALLOWED } ∧
      (TIMER1_COMPA_vect s).timer_stopped ∧
      (TIMER1_COMPA_vect s).receiver_allow_repeat = REPEAT_COMMAND_NOT_ALLOWED ∧
      (TIMER1_COMPA_vect s).receiver_state = RECEIVER_STATE_READY ∧
      (TIMER1_COMPA_vect s).rec_addr = s.rec_addr ∧
      (TIMER1_COMPA_vect s).rec_ext_addr = s.rec_ext_addr ∧
      (TIMER1_COMPA_vect s).rec_command = s.rec_command ∧
      (TIMER1_COMPA_vect s).rec_repeat = s.rec_repeat) ∧
    (s.receiver_state = RECEIVER_STATE_START_REPEAT ∨
        s.receiver_state = RECEIVER_STATE_READING →
      (TIMER1_COMPA_vect s).IsReset) := by
  constructor
  · intro h
    have hs : (stop_ir_timer s).receiver_state = RECEIVER_STATE_READY := h
    have e : TIMER1_COMPA_vect s =
        { stop_ir_timer s with receiver_allow_repeat := REPEAT_COMMAND_NOT_ALLOWED } := by
      unfold TIMER1_COMPA_vect
      simp only
      rw [if_pos hs]
    rw [e]
    exact ⟨rfl, clock_bits_cleared s.TCCR1B, rfl, h, rfl, rfl, rfl, rfl⟩
  · intro h
    have hs : (stop_ir_timer s).receiver_state ≠ RECEIVER_STATE_READY := by
      show s.receiver_state ≠ RECEIVER_STATE_READY
      rcases h with h | h <;> rw [h] <;> decide
    have e : TIMER1_COMPA_vect s = reset_ir_receiver (stop_ir_timer s) := by
      unfold TIMER1_COMPA_vect
      simp only
      rw [if_neg hs]
    rw [e]
    exact reset_ir_receiver_isReset _

/-- C13 at `ready_sample` (a packet is ready) and at `last_bit_sample` (a
frame is being read): the packet survives the expiry with its repeat count 3,
the half-read frame is reset. -/
theorem timer_expiry_witness :
    (TIMER1_COMPA_vect ready_sample).receiver_state = RECEIVER_STATE_READY ∧
    (TIMER1_COMPA_vect ready_sample).receiver_allow_repeat = REPEAT_COMMAND_NOT_ALLOWED ∧
    (TIMER1_COMPA_vect ready_sample).rec_repeat = 3 ∧
    (TIMER1_COMPA_vect last_bit_sample).IsReset :=
  have h := (timer_expiry ready_sample).1 rfl
  ⟨h.2.2.2.1, h.2.2.1, h.2.2.2.2.2.2.2,
    (timer_expiry last_bit_sample).2 (Or.inr rfl)⟩

/-! ### Start symbol -/

/-- C16, start-symbol handling: from every receiver state, `read_chunk` on a
pulse/pause pair in the start window (`1750 < pulse < 2750`,
`800 < pause < 1500`) ends with `receiver_state = READING`,
`read_bit_counter = 0` and `rec_addr`, `rec_addr_inv`, `rec_command`,
`rec_command_inv`, `rec_ext_addr` and `rec_repeat` all zero; everything else
but the two time counters is as before. -/
theorem start_bit_handling (s : Receiver) (pulse pause : Nat)
    (hp : 1750 < pulse ∧ pulse < 2750) (hq : 800 < pause ∧ pause < 1500) :
    (feed s pulse pause).receiver_state = RECEIVER_STATE_READING ∧
    (feed s pulse pause).read_bit_counter = 0 ∧
    (feed s pulse pause).rec_addr = 0 ∧
    (feed s pulse pause).rec_addr_inv = 0 ∧
    (feed s pulse pause).rec_command = 0 ∧
    (feed s pulse pause).rec_command_inv = 0 ∧
    (feed s pulse pause).rec_ext_addr = 0 ∧
    (feed s pulse pause).rec_repeat = 0 ∧
    feed s pulse pause = reading_at s 0 0 0 0 0 := by
  have h : chunk_handler pulse pause = .start_bit :=
    (start_window_ticks pulse pause).2 ⟨hp, hq⟩
  have e : feed s pulse pause = reading_at s 0 0 0 0 0 := by
    unfold feed
    rw [read_chunk_eq_run]
    simp only [h]
    rfl
  rw [e]
  exact ⟨rfl, rfl, rfl, rfl, rfl, rfl, rfl, rfl, rfl⟩

/-- C16 in the middle of a frame (`last_bit_sample`, 31 bits read) with the
nominal start timing: the bits read so far are gone. -/
theorem start_bit_handling_witness :
    last_bit_sample.read_bit_counter = 31 ∧ last_bit_sample.rec_command = 0x10 ∧
    (feed last_bit_sample 2250 1125).receiver_state = RECEIVER_STATE_READING ∧
    (feed last_bit_sample 2250 1125).read_bit_counter = 0 ∧
    (feed last_bit_sample 2250 1125).rec_command = 0 :=
  have h := start_bit_handling last_bit_sample 2250 1125 (by decide) (by decide)
  ⟨rfl, rfl, h.1, h.2.1, h.2.2.2.2.1⟩

/-! ### Repeat after a read -/

/-- A state as `check_new_packet` leaves it after taking an extended-address
packet that has been repeated 254 times: repeat is still permitted. -/
def taken_sample : Receiver :=
  { ready_sample with
    receiver_state := RECEIVER_STATE_START_REPEAT
    rec_repeat := 254 }

/-- C19, repeat after a read re-publishes the packet: in every state with
`receiver_state == START_REPEAT` and repeat permitted (`rec_repeat` being a
byte), `on_repeat_command` sets `receiver_state` to `READY` and `rec_repeat`
to `min(rec_repeat + 1, 255)` and leaves `rec_addr`, `rec_ext_addr` and
`rec_command` unchanged; the next `check_new_packet` returns 1 and hands out
the address and command a poll of the same variables hands out, with the
incremented repeat counter. -/
theorem repeat_after_read (s : Receiver) (pkt : IR_Packet)
    (hst : s.receiver_state = RECEIVER_STATE_START_REPEAT)
    (hal : s.receiver_allow_repeat = REPEAT_COMMAND_ALLOWED)
    (hr : s.rec_repeat ≤ 255) :
    (on_repeat_command s).receiver_state = RECEIVER_STATE_READY ∧
    (on_repeat_command s).rec_repeat = min (s.rec_repeat + 1) 255 ∧
    (on_repeat_command s).rec_addr = s.rec_addr ∧
    (on_repeat_command s).rec_ext_addr = s.rec_ext_addr ∧
    (on_repeat_command s).rec_command = s.rec_command ∧
    (check_new_packet (on_repeat_command s) pkt).1 = 1 ∧
    (check_new_packet (on_repeat_command s) pkt).2.2.addr =
      (check_new_packet { s with receiver_state := RECEIVER_STATE_READY } pkt).2.2.addr ∧
    (check_new_packet (on_repeat_command s) pkt).2.2.command = s.rec_command ∧
    (check_new_packet (on_repeat_command s) pkt).2.2.repeat_ = min (s.rec_repeat + 1) 255 := by
  have e : on_repeat_command s =
      start_ir_timer
        { s with
          rec_repeat := min (s.rec_repeat + 1) 255
          receiver_state := RECEIVER_STATE_READY }
        MAX_DELAY_FOR_NEXT_REPEAT_COMMAND := by
    unfold on_repeat_command
    rw [if_pos ⟨hal, Or.inr hst⟩]
    by_cases h : s.rec_repeat < REPEAT_COMMAND_MAX_QTY
    · have h2 : s.rec_repeat < 255 := h
      have h3 : (s.rec_repeat + 1) % 256 = min (s.rec_repeat + 1) 255 := by omega
      simp only [h, if_true, h3]
    · have h2 : ¬ s.rec_repeat < 255 := h
      have h3 : s.rec_repeat = min (s.rec_repeat + 1) 255 := by omega
      simp only [h, if_false]
      rw [← h3]
  rw [e, check_new_packet_of_ready _ pkt rfl,
    check_new_packet_of_ready { s with receiver_state := RECEIVER_STATE_READY } pkt rfl]
  exact ⟨rfl, rfl, rfl, rfl, rfl, rfl, rfl, rfl, rfl⟩

/-- C19 at `taken_sample`: the repeat command makes the packet ready again
with repeat count 255, and the poll returns the same address byte `0x34` and
command `0x10`. -/
theorem repeat_after_read_witness :
    taken_sample.receiver_state = RECEIVER_STATE_START_REPEAT ∧
    (on_repeat_command taken_sample).receiver_state = RECEIVER_STATE_READY ∧
    (on_repeat_command taken_sample).rec_repeat = 255 ∧
    (check_new_packet (on_repeat_command taken_sample) stale_packet).1 = 1 ∧
    (check_new_packet (on_repeat_command taken_sample) stale_packet).2.2.addr = 0x34 ∧
    (check_new_packet (on_repeat_command taken_sample) stale_packet).2.2.command = 0x10 ∧
    (check_new_packet (on_repeat_command taken_sample) stale_packet).2.2.repeat_ = 255 :=
  have h := repeat_after_read taken_sample stale_packet rfl rfl (by decide)
  ⟨rfl, h.1, h.2.1.trans (by decide), h.2.2.2.2.2.1, h.2.2.2.2.2.2.1.trans (by decide),
    h.2.2.2.2.2.2.2.1.trans (by decide), h.2.2.2.2.2.2.2.2.trans (by decide)⟩

/-! ### The sum check -/

/-- C20, the sum check is the complement check: for all bytes `x` and `y`, the
test `(x + y) == 0xFF` of `on_data_bit`, taken without 8-bit wraparound, holds
exactly when `y` is the bitwise complement `x XOR 0xFF`; accordingly the
frame check publishes a frame whose command bytes are `x` and `y` exactly
when `y` is the complement of `x`, and keeps a non-zero address byte `x` in
`rec_addr` (the standard-address branch) exactly when the address bytes are
complements; no two bytes add up to `0x1FF`, so no such pair is accepted. -/
theorem sum_check_is_complement (x y : Nat) (hx : x < 256) (hy : y < 256) :
    (x + y = 0xFF ↔ y = complement x) ∧
    (∀ s : Receiver, s.rec_command = x → s.rec_command_inv = y →
      ((check_frame s).receiver_state = RECEIVER_STATE_READY ↔ y = complement x)) ∧
    (∀ s : Receiver, s.rec_command + s.rec_command_inv = 0xFF →
      s.rec_addr = x → s.rec_addr_inv = y → 0 < x →
      ((check_frame s).rec_addr = x ↔ y = complement x)) ∧
    x + y ≠ 0x1FF := by
  have hc : complement x = 255 - x := complement_eq x hx
  have h1 : x + y = 0xFF ↔ y = complement x := by rw [hc]; omega
  refine ⟨h1, ?_, ?_, ?_⟩
  · intro s hsx hsy
    rw [← h1]
    unfold check_frame
    rw [hsx, hsy]
    by_cases h : x + y = 0xFF
    · rw [if_pos h]
      exact ⟨fun _ => h, fun _ => rfl⟩
    · rw [if_neg h]
      exact ⟨fun h2 => absurd h2 (by simp [reset_ir_receiver]), fun h2 => absurd h2 h⟩
  · intro s hcmd hsx hsy hpos
    rw [← h1]
    by_cases h : x + y = 0xFF
    · rw [check_frame_standard s hcmd (by rw [hsx, hsy]; exact h)]
      exact ⟨fun _ => h, fun _ => hsx⟩
    · rw [check_frame_extended s hcmd (by rw [hsx, hsy]; exact h)]
      constructor
      · intro h2
        have h3 : (0 : Nat) = x := h2
        omega
      · intro h2
        exact absurd h2 h
  · omega

/-- C20 at `x = 0x10`: `0xEF` is its complement and passes the check; and at
`x = y = 0xFF`: the pair fails it, and a frame with these command bytes is not
published. -/
theorem sum_check_is_complement_witness :
    (0x10 + 0xEF = 0xFF ↔ 0xEF = complement 0x10) ∧ complement 0x10 = 0xEF ∧
    ¬ (0xFF + 0xFF = 0xFF) ∧ complement 0xFF ≠ 0xFF ∧
    (check_frame { last_bit_sample with rec_command := 0xFF, rec_command_inv := 0xFF
      }).receiver_state ≠ RECEIVER_STATE_READY :=
  have h := sum_check_is_complement 0xFF 0xFF (by decide) (by decide)
  ⟨(sum_check_is_complement 0x10 0xEF (by decide) (by decide)).1, by decide, by decide,
    by decide,
    fun hr => absurd ((h.2.1 _ rfl rfl).1 hr) (by decide)⟩

/-! ### Pairs outside the windows -/

/-- A pair that calls no handler only has the two counters zeroed. -/
theorem feed_of_nothing (s : Receiver) (pulse pause : Nat)
    (h : chunk_handler pulse pause = .nothing) :
    feed s pulse pause = clear_counters s := by
  unfold feed
  rw [read_chunk_eq_run]
  simp only [h]
  rfl

/-- A positive pair whose pulse lies in neither pulse window resets the
receiver, from every state, and a start symbol right afterwards enters
`READING`. -/
theorem feed_of_bad_pulse (s : Receiver) (pulse pause : Nat)
    (hp : 0 < pulse) (hq : 0 < pause)
    (h1 : ¬ (1750 < pulse ∧ pulse < 2750)) (h2 : ¬ (90 < pulse ∧ pulse < 190)) :
    (feed s pulse pause).IsReset ∧
    (feed (feed s pulse pause) 2250 1125).receiver_state = RECEIVER_STATE_READING := by
  have h : chunk_handler pulse pause = .reset := classifier_reset pulse pause hp hq h1 h2
  refine ⟨?_, by rw [feed_start]; rfl⟩
  unfold feed
  rw [read_chunk_eq_run]
  simp only [h]
  exact reset_ir_receiver_isReset _

/-- The receiver three bits into a frame: start symbol, then the bits 1, 0, 1. -/
def mid_frame_sample : Receiver :=
  feed_bits (feed (reset_ir_receiver power_on) 2250 1125) [true, false, true]

set_option maxRecDepth 100000 in
/-- C11 at `mid_frame_sample` with pulse 140 and pause 250: the pair lies in
none of the four windows, yet `read_chunk` calls no handler; the receiver is
still `READING` with bit counter 3 and address bits `0b101`, it is not in the
reset state, and nothing but the (already zero) time counters was touched.
The expiry of the timer is what resets such a state. -/
theorem invalid_pause_not_reset :
    mid_frame_sample.receiver_state = RECEIVER_STATE_READING ∧
    chunk_handler 140 250 = .nothing ∧
    feed mid_frame_sample 140 250 = mid_frame_sample ∧
    (feed mid_frame_sample 140 250).receiver_state = RECEIVER_STATE_READING ∧
    (feed mid_frame_sample 140 250).read_bit_counter = 3 ∧
    (feed mid_frame_sample 140 250).rec_addr = 5 ∧
    ¬ (feed mid_frame_sample 140 250).IsReset ∧
    (TIMER1_COMPA_vect (feed mid_frame_sample 140 250)).IsReset := by
  decide

/-! ### Data bits outside a frame -/

/-- `on_data_bit` outside `READING` changes nothing. -/
theorem on_data_bit_of_not_reading (s : Receiver) (bit : Nat)
    (h : s.receiver_state ≠ RECEIVER_STATE_READING) : on_data_bit s bit = s := by
  unfold on_data_bit
  rw [if_neg (fun g => h g.2)]

/-- The state `check_new_packet` leaves after taking the packet decoded from
the frame `00 FF 10 EF`. -/
def taken_state : Receiver :=
  (check_new_packet (feed_frame (reset_ir_receiver power_on) 0x00 0xFF 0x10 0xEF)
    stale_packet).2.1

set_option maxRecDepth 100000 in
/-- C17 fails at `taken_state`, the state right after a packet was taken: the
state is `START_REPEAT`, and a data bit (pulse 140, pause 422) leaves the
command byte `0x10` and the repeat permission in place, so the receiver is
not in the reset state. -/
theorem data_bit_outside_frame_not_reset :
    taken_state.receiver_state = RECEIVER_STATE_START_REPEAT ∧
    chunk_handler 140 422 = .data_bit 1 ∧
    (feed taken_state 140 422).receiver_allow_repeat = REPEAT_COMMAND_ALLOWED ∧
    (feed taken_state 140 422).rec_command = 0x10 ∧
    ¬ (feed taken_state 140 422).IsReset ∧
    ¬ (on_data_bit taken_state 1).IsReset := by
  decide

/-- C17 as the code has it: in every state with
`receiver_state == START_REPEAT`, `on_data_bit` changes nothing, and
`read_chunk` on a pair in either data-bit window changes nothing but the
pulse and pause counters, which it zeroes; the state stays `START_REPEAT` and
the frame bytes, the extended address, the repeat counter, the bit counter
and the repeat permission keep their values. -/
theorem data_bit_outside_frame (s : Receiver) (pulse pause : Nat)
    (hst : s.receiver_state = RECEIVER_STATE_START_REPEAT)
    (hp : 90 < pulse ∧ pulse < 190)
    (hq : (375 < pause ∧ pause < 475) ∨ (90 < pause ∧ pause < 190)) :
    on_data_bit s 1 = s ∧ on_data_bit s 0 = s ∧
    feed s pulse pause = { s with pulse_time_counter := 0, pause_time_counter := 0 } ∧
    (feed s pulse pause).receiver_state = RECEIVER_STATE_START_REPEAT ∧
    (feed s pulse pause).receiver_allow_repeat = s.receiver_allow_repeat := by
  have hn : s.receiver_state ≠ RECEIVER_STATE_READING := by rw [hst]; decide
  have e : feed s pulse pause =
      { s with pulse_time_counter := 0, pause_time_counter := 0 } := by
    unfold feed
    rw [read_chunk_eq_run]
    rcases hq with hq | hq
    · have h : chunk_handler pulse pause = .data_bit 1 :=
        (data_windows_ticks pulse pause).1.2 ⟨hp, hq⟩
      simp only [h, Handler.run]
      rw [on_data_bit_of_not_reading
        { s with pulse_time_counter := pulse, pause_time_counter := pause } _ hn]
      rfl
    · have h : chunk_handler pulse pause = .data_bit 0 :=
        (data_windows_ticks pulse pause).2.2 ⟨hp, hq⟩
      simp only [h, Handler.run]
      rw [on_data_bit_of_not_reading
        { s with pulse_time_counter := pulse, pause_time_counter := pause } _ hn]
      rfl
  rw [e]
  exact ⟨on_data_bit_of_not_reading s 1 hn, on_data_bit_of_not_reading s 0 hn, rfl, hst, rfl⟩

set_option maxRecDepth 100000 in
/-- C17 as the code has it, at `taken_state` with the timing of a 1 bit: the
receiver is exactly as before, repeat permission included. -/
theorem data_bit_outside_frame_witness :
    taken_state.receiver_state = RECEIVER_STATE_START_REPEAT ∧
    feed taken_state 140 422 = taken_state ∧
    (feed taken_state 140 422).receiver_allow_repeat = REPEAT_COMMAND_ALLOWED :=
  have hst : taken_state.receiver_state = RECEIVER_STATE_START_REPEAT := by decide
  have h := data_bit_outside_frame taken_state 140 422 hst (by decide) (Or.inl (by decide))
  ⟨hst, h.2.2.1.trans (by decide), h.2.2.2.2.trans (by decide)⟩

/-! ### A ready packet survives the interrupts -/

/-- One interrupt in a `READY` state keeps the state `READY` and the stored
address, command and repeat counter as they are. -/
theorem interrupt_of_ready (s : Receiver) (irq : Interrupt)
    (h : s.receiver_state = RECEIVER_STATE_READY) :
    (interrupt s irq).receiver_state = RECEIVER_STATE_READY ∧
    (interrupt s irq).rec_addr = s.rec_addr ∧
    (interrupt s irq).rec_ext_addr = s.rec_ext_addr ∧
    (interrupt s irq).rec_command = s.rec_command ∧
    (interrupt s irq).rec_repeat = s.rec_repeat := by
  cases irq with
  | edge pind tcnt =>
    have e : interrupt s (.edge pind tcnt) = { s with TCNT1 := tcnt } := by
      show INT0_vect { s with TCNT1 := tcnt } pind = { s with TCNT1 := tcnt }
      unfold INT0_vect
      rw [if_pos h]
    rw [e]
    exact ⟨h, rfl, rfl, rfl, rfl⟩
  | timer =>
    have hs : (stop_ir_timer s).receiver_state = RECEIVER_STATE_READY := h
    have e : interrupt s .timer =
        { stop_ir_timer s with receiver_allow_repeat := REPEAT_COMMAND_NOT_ALLOWED } := by
      show TIMER1_COMPA_vect s = _
      unfold TIMER1_COMPA_vect
      simp only
      rw [if_pos hs]
    rw [e]
    exact ⟨h, rfl, rfl, rfl, rfl⟩

/-- Any sequence of interrupts in a `READY` state keeps the state `READY` and
the stored address, command and repeat counter as they are. -/
theorem interrupts_of_ready (irqs : List Interrupt) (s : Receiver)
    (h : s.receiver_state = RECEIVER_STATE_READY) :
    (interrupts s irqs).receiver_state = RECEIVER_STATE_READY ∧
    (interrupts s irqs).rec_addr = s.rec_addr ∧
    (interrupts s irqs).rec_ext_addr = s.rec_ext_addr ∧
    (interrupts s irqs).rec_command = s.rec_command ∧
    (interrupts s irqs).rec_repeat = s.rec_repeat := by
  induction irqs generalizing s with
  | nil => exact ⟨h, rfl, rfl, rfl, rfl⟩
  | cons irq rest ih =>
    obtain ⟨h1, h2, h3, h4, h5⟩ := interrupt_of_ready s irq h
    obtain ⟨i1, i2, i3, i4, i5⟩ := ih (interrupt s irq) h1
    exact ⟨i1, i2.trans h2, i3.trans h3, i4.trans h4, i5.trans h5⟩

/-- C14, a ready packet survives until it is read: in every state with
`receiver_state == READY` the handler `INT0_vect` changes nothing, whatever
the pin level and the timer count; and after any sequence of edge interrupts
and timer expiries the state is still `READY` and `check_new_packet` returns
1 with the very packet it would have returned before them. -/
theorem ready_packet_survives (s : Receiver) (pkt : IR_Packet)
    (h : s.receiver_state = RECEIVER_STATE_READY) :
    (∀ pind : Nat, INT0_vect s pind = s) ∧
    (∀ pind tcnt : Nat, INT0_vect { s with TCNT1 := tcnt } pind = { s with TCNT1 := tcnt }) ∧
    (∀ irqs : List Interrupt,
      (interrupts s irqs).receiver_state = RECEIVER_STATE_READY ∧
      (check_new_packet (interrupts s irqs) pkt).1 = 1 ∧
      (check_new_packet (interrupts s irqs) pkt).2.2 = (check_new_packet s pkt).2.2) := by
  refine ⟨fun pind => ?_, fun pind tcnt => ?_, fun irqs => ?_⟩
  · unfold INT0_vect
    rw [if_pos h]
  · unfold INT0_vect
    rw [if_pos h]
  · obtain ⟨h1, h2, h3, h4, h5⟩ := interrupts_of_ready irqs s h
    rw [check_new_packet_of_ready _ pkt h1, check_new_packet_of_ready s pkt h, h2, h3, h4, h5]
    exact ⟨h1, rfl, rfl⟩

/-- C14 at `ready_sample`: a falling edge, a timer expiry and a rising edge
later the packet is still ready and the poll hands out address byte `0x34`,
command `0x10` and repeat count 3. -/
theorem ready_packet_survives_witness :
    ready_sample.receiver_state = RECEIVER_STATE_READY ∧
    (interrupts ready_sample [.edge 0 0, .timer, .edge 4 2250]).receiver_state =
      RECEIVER_STATE_READY ∧
    (check_new_packet (interrupts ready_sample [.edge 0 0, .timer, .edge 4 2250])
      stale_packet).2.2 =
      { stale_packet with addr := 0x34, command := 0x10, repeat_ := 3 } :=
  have h := (ready_packet_survives ready_sample stale_packet rfl).2.2
    [.edge 0 0, .timer, .edge 4 2250]
  ⟨rfl, h.1, h.2.2.trans (by decide)⟩

/-! ### Consistency of the reachable states -/

/-- After the three clock select bits are cleared, `TCCR1B` is an 8-bit value
with `CS12` clear. -/
theorem clock_bits_cleared_range (x : Nat) :
    ((x &&& (255 ^^^ (1 <<< CS10))) &&& (255 ^^^ (1 <<< CS11)) &&& (255 ^^^ (1 <<< CS12)))
      < 256 ∧
    ((x &&& (255 ^^^ (1 <<< CS10))) &&& (255 ^^^ (1 <<< CS11)) &&& (255 ^^^ (1 <<< CS12)))
      &&& (1 <<< CS12) = 0 := by
  constructor
  · have h : (255 ^^^ (1 <<< CS12)) < 256 := by decide
    exact Nat.lt_of_le_of_lt Nat.and_le_right h
  · rw [Nat.and_assoc _ (255 ^^^ (1 <<< CS12)) (1 <<< CS12)]
    have h : (255 ^^^ (1 <<< CS12)) &&& (1 <<< CS12) = 0 := by decide
    rw [h, Nat.and_zero]

set_option maxRecDepth 100000 in
/-- Setting `WGM12`, `CS10` and `CS11` in an 8-bit `TCCR1B` with `CS12` clear
selects the prescaler 64 and leaves `CS12` clear. -/
theorem clock_bits_set : ∀ x, x < 256 → x &&& (1 <<< CS12) = 0 →
    ((x ||| (1 <<< WGM12)) ||| ((1 <<< CS10) ||| (1 <<< CS11))) < 256 ∧
    ((x ||| (1 <<< WGM12)) ||| ((1 <<< CS10) ||| (1 <<< CS11))) &&& (1 <<< CS12) = 0 ∧
    ((x ||| (1 <<< WGM12)) ||| ((1 <<< CS10) ||| (1 <<< CS11))) &&&
      ((1 <<< CS10) ||| (1 <<< CS11) ||| (1 <<< CS12)) = (1 <<< CS10) ||| (1 <<< CS11) ∧
    ((x ||| (1 <<< WGM12)) ||| ((1 <<< CS10) ||| (1 <<< CS11))) &&& (1 <<< WGM12) =
      1 <<< WGM12 := by
  decide

/-- A bit that has just been set reads as set. -/
theorem or_and_self (y m : Nat) : (y ||| m) &&& m = m := by
  apply Nat.eq_of_testBit_eq
  intro i
  rw [Nat.testBit_and, Nat.testBit_or]
  cases y.testBit i <;> cases m.testBit i <;> rfl

/-- What `store_bit` leaves alone. -/
theorem store_bit_frame (s : Receiver) :
    (store_bit s).read_bit_counter = s.read_bit_counter ∧
    (store_bit s).receiver_state = s.receiver_state ∧
    (store_bit s).rec_repeat = s.rec_repeat ∧
    (store_bit s).TCCR1B = s.TCCR1B := by
  unfold store_bit
  split_ifs <;> exact ⟨rfl, rfl, rfl, rfl⟩

theorem consistent_reset (s : Receiver) : (reset_ir_receiver s).Consistent := by
  obtain ⟨h1, h2⟩ := clock_bits_cleared_range s.TCCR1B
  exact ⟨Nat.zero_le _, fun _ => rfl, fun _ => rfl, h1, h2⟩

theorem consistent_on_new_packet_received (s : Receiver)
    (h4 : s.TCCR1B < 256) (h5 : s.TCCR1B &&& (1 <<< CS12) = 0) :
    (on_new_packet_received s).Consistent := by
  obtain ⟨k1, k2, _, _⟩ := clock_bits_set s.TCCR1B h4 h5
  refine ⟨Nat.zero_le _, fun _ => rfl, fun h => ?_, k1, k2⟩
  exact absurd h (by simp [on_new_packet_received, start_ir_timer])

theorem consistent_check_frame (s : Receiver)
    (h4 : s.TCCR1B < 256) (h5 : s.TCCR1B &&& (1 <<< CS12) = 0) :
    (check_frame s).Consistent := by
  by_cases hc : s.rec_command + s.rec_command_inv = 0xFF
  · by_cases ha : s.rec_addr + s.rec_addr_inv = 0xFF
    · rw [check_frame_standard s hc ha]
      exact consistent_on_new_packet_received _ h4 h5
    · rw [check_frame_extended s hc ha]
      exact consistent_on_new_packet_received _ h4 h5
  · unfold check_frame
    rw [if_neg hc]
    exact consistent_reset s

theorem consistent_on_data_bit (s : Receiver) (bit : Nat) (h : s.Consistent) :
    (on_data_bit s bit).Consistent := by
  unfold on_data_bit
  by_cases g : s.read_bit_counter < NEC_MAX_PACKET_BIT_NUMBER ∧
      s.receiver_state = RECEIVER_STATE_READING
  · rw [if_pos g]
    have hs1 : (if bit ≠ 0 then store_bit s else s).read_bit_counter = s.read_bit_counter ∧
        (if bit ≠ 0 then store_bit s else s).receiver_state = s.receiver_state ∧
        (if bit ≠ 0 then store_bit s else s).rec_repeat = s.rec_repeat ∧
        (if bit ≠ 0 then store_bit s else s).TCCR1B = s.TCCR1B := by
      split_ifs
      · exact store_bit_frame s
      · exact ⟨rfl, rfl, rfl, rfl⟩
    generalize (if bit ≠ 0 then store_bit s else s) = s1 at hs1 ⊢
    obtain ⟨e1, e2, e3, e4⟩ := hs1
    obtain ⟨_, _, c3, c4, c5⟩ := h
    have g1 : s.read_bit_counter < 32 := g.1
    simp only
    split_ifs with hc
    · exact consistent_check_frame _ (by rw [← e4] at c4; exact c4)
        (by rw [← e4] at c5; exact c5)
    · have hc2 : (s1.read_bit_counter + 1) % 256 ≠ 32 := hc
      refine ⟨?_, fun hn => absurd (e2.trans g.2) hn, fun _ => e3.trans (c3 g.2), ?_, ?_⟩
      · show (s1.read_bit_counter + 1) % 256 ≤ 31
        omega
      · rw [← e4] at c4; exact c4
      · rw [← e4] at c5; exact c5
  · rw [if_neg g]
    exact h

theorem consistent_on_repeat_command (s : Receiver) (h : s.Consistent) :
    (on_repeat_command s).Consistent := by
  obtain ⟨_, c2, _, c4, c5⟩ := h
  obtain ⟨k1, k2, _, _⟩ := clock_bits_set s.TCCR1B c4 c5
  unfold on_repeat_command
  split_ifs with g h1
  · have hn : s.receiver_state ≠ RECEIVER_STATE_READING := by
      rcases g.2 with h2 | h2 <;> rw [h2] <;> decide
    have h0 : s.read_bit_counter = 0 := c2 hn
    exact ⟨by show s.read_bit_counter ≤ 31; omega, fun _ => h0,
      fun h3 => absurd h3 (by simp [start_ir_timer]), k1, k2⟩
  · have hn : s.receiver_state ≠ RECEIVER_STATE_READING := by
      rcases g.2 with h2 | h2 <;> rw [h2] <;> decide
    have h0 : s.read_bit_counter = 0 := c2 hn
    exact ⟨by show s.read_bit_counter ≤ 31; omega, fun _ => h0,
      fun h3 => absurd h3 (by simp [start_ir_timer]), k1, k2⟩
  · exact consistent_reset s

theorem consistent_handler (k : Handler) (s : Receiver) (h : s.Consistent) :
    (k.run s).Consistent := by
  cases k with
  | start_bit =>
    exact ⟨Nat.zero_le _, fun _ => rfl, fun _ => rfl, h.2.2.2.1, h.2.2.2.2⟩
  | repeat_command => exact consistent_on_repeat_command s h
  | data_bit bit => exact consistent_on_data_bit s bit h
  | reset => exact consistent_reset s
  | nothing => exact h

theorem consistent_feed (s : Receiver) (pulse pause : Nat) (h : s.Consistent) :
    (feed s pulse pause).Consistent := by
  unfold feed
  rw [read_chunk_eq_run]
  exact consistent_handler _ _ h

theorem consistent_timer (s : Receiver) (h : s.Consistent) :
    (TIMER1_COMPA_vect s).Consistent := by
  obtain ⟨k1, k2⟩ := clock_bits_cleared_range s.TCCR1B
  unfold TIMER1_COMPA_vect
  simp only
  split_ifs with g
  · exact ⟨h.1, h.2.1, h.2.2.1, k1, k2⟩
  · exact consistent_reset _

theorem consistent_poll (s : Receiver) (pkt : IR_Packet) (h : s.Consistent) :
    (check_new_packet s pkt).2.1.Consistent := by
  by_cases g : s.receiver_state = RECEIVER_STATE_READY
  · rw [check_new_packet_of_ready s pkt g]
    have h0 : s.read_bit_counter = 0 := h.2.1 (by rw [g]; decide)
    exact ⟨h.1, fun _ => h0,
      fun h3 => absurd (show RECEIVER_STATE_START_REPEAT = RECEIVER_STATE_READING from h3)
        (by decide),
      h.2.2.2.1, h.2.2.2.2⟩
  · rw [check_new_packet_of_not_ready s pkt g]
    exact h

theorem consistent_step (s : Receiver) (e : Event) (h : s.Consistent) :
    (step s e).Consistent := by
  cases e with
  | chunk pulse pause => exact consistent_feed s pulse pause h
  | timer => exact consistent_timer s h
  | poll pkt => exact consistent_poll s pkt h

theorem consistent_run (events : List Event) (s : Receiver) (h : s.Consistent) :
    (run s events).Consistent := by
  induction events generalizing s with
  | nil => exact h
  | cons e rest ih => exact ih (step s e) (consistent_step s e h)

theorem consistent_of_reachable (s : Receiver) (h : Reachable s) : s.Consistent := by
  obtain ⟨s0, events, rfl⟩ := h
  exact consistent_run events _ (consistent_reset s0)

/-! ### Bit index -/

/-- The shift `store_bit` applies is `shift_amount`, in each of its four
cases. -/
theorem store_bit_uses_shift_amount (s : Receiver) :
    store_bit s =
      if s.read_bit_counter < 8 then
        { s with rec_addr := (s.rec_addr ||| (1 <<< shift_amount s)) % 256 }
      else if s.read_bit_counter < 16 then
        { s with rec_addr_inv := (s.rec_addr_inv ||| (1 <<< shift_amount s)) % 256 }
      else if s.read_bit_counter < 24 then
        { s with rec_command := (s.rec_command ||| (1 <<< shift_amount s)) % 256 }
      else
        { s with rec_command_inv := (s.rec_command_inv ||| (1 <<< shift_amount s)) % 256 } := by
  unfold store_bit shift_amount
  by_cases c1 : s.read_bit_counter < 8
  · simp only [c1, if_true]
  · by_cases c2 : s.read_bit_counter < 16
    · have c5 : s.read_bit_counter ≥ 8 := by omega
      simp only [c1, c2, c5, if_true, if_false, and_self]
    · by_cases c3 : s.read_bit_counter < 24
      · have c5 : s.read_bit_counter ≥ 8 := by omega
        have c6 : s.read_bit_counter ≥ 16 := by omega
        simp only [c1, c2, c3, c5, c6, if_true, if_false, and_self, and_false, and_true]
      · have c5 : s.read_bit_counter ≥ 8 := by omega
        have c6 : s.read_bit_counter ≥ 16 := by omega
        have c7 : s.read_bit_counter ≥ 24 := by omega
        simp only [c1, c2, c3, c5, c6, c7, if_true, if_false, and_self, and_false, and_true]

/-- The receiver 31 bits into the frame `00 FF 10 EF`: the start symbol and
all data bits but the last have been handled. -/
def almost_complete : Receiver :=
  run (reset_ir_receiver power_on) ((frame_events 0x00 0xFF 0x10 0xEF).take 32)

/-- C18, bit-index invariant: in every state reachable from the reset state
`read_bit_counter <= 31`, and `read_bit_counter = 0` whenever
`receiver_state != READING`; so the shift amount `on_data_bit` uses for the
next bit (the counter, or the counter less 8, 16 or 24) is at most 7. -/
theorem bit_index_invariant (s : Receiver) (h : Reachable s) :
    s.read_bit_counter ≤ 31 ∧
    (s.receiver_state ≠ RECEIVER_STATE_READING → s.read_bit_counter = 0) ∧
    shift_amount s ≤ 7 := by
  obtain ⟨h1, h2, _⟩ := consistent_of_reachable s h
  refine ⟨h1, h2, ?_⟩
  unfold shift_amount
  split_ifs <;> omega

set_option maxRecDepth 100000 in
/-- C18 at `almost_complete`: the state is reachable, its bit index is 31 and
the shift amount for the last bit is 7. -/
theorem bit_index_invariant_witness :
    Reachable almost_complete ∧ almost_complete.read_bit_counter = 31 ∧
    shift_amount almost_complete = 7 ∧ shift_amount almost_complete ≤ 7 :=
  ⟨⟨power_on, _, rfl⟩, by decide, by decide,
    (bit_index_invariant almost_complete ⟨power_on, _, rfl⟩).2.2⟩

/-! ### Publication -/

/-- A data bit that takes the receiver from `READING` to `READY` ends in
`on_new_packet_received`, applied to a state with the repeat counter and
`TCCR1B` it had before the bit. -/
theorem on_data_bit_publishes (s : Receiver) (bit : Nat)
    (hst : s.receiver_state = RECEIVER_STATE_READING)
    (hr : (on_data_bit s bit).receiver_state = RECEIVER_STATE_READY) :
    ∃ s1 : Receiver, on_data_bit s bit = on_new_packet_received s1 ∧
      s1.rec_repeat = s.rec_repeat ∧ s1.TCCR1B = s.TCCR1B := by
  unfold on_data_bit at hr ⊢
  by_cases g : s.read_bit_counter < NEC_MAX_PACKET_BIT_NUMBER ∧
      s.receiver_state = RECEIVER_STATE_READING
  · rw [if_pos g] at hr ⊢
    have hs1 : (if bit ≠ 0 then store_bit s else s).receiver_state = s.receiver_state ∧
        (if bit ≠ 0 then store_bit s else s).rec_repeat = s.rec_repeat ∧
        (if bit ≠ 0 then store_bit s else s).TCCR1B = s.TCCR1B := by
      split_ifs
      · exact ⟨(store_bit_frame s).2.1, (store_bit_frame s).2.2.1, (store_bit_frame s).2.2.2⟩
      · exact ⟨rfl, rfl, rfl⟩
    generalize (if bit ≠ 0 then store_bit s else s) = s1 at hs1 hr ⊢
    obtain ⟨e2, e3, e4⟩ := hs1
    simp only at hr ⊢
    by_cases hc : (s1.read_bit_counter + 1) % 256 = NEC_MAX_PACKET_BIT_NUMBER
    · rw [if_pos hc] at hr ⊢
      generalize hs2 : ({ s1 with read_bit_counter := (s1.read_bit_counter + 1) % 256 } :
        Receiver) = s2 at hr ⊢
      have f3 : s2.rec_repeat = s.rec_repeat := by rw [← hs2]; exact e3
      have f4 : s2.TCCR1B = s.TCCR1B := by rw [← hs2]; exact e4
      by_cases hsum : s2.rec_command + s2.rec_command_inv = 0xFF
      · by_cases ha : s2.rec_addr + s2.rec_addr_inv = 0xFF
        · rw [check_frame_standard s2 hsum ha]
          exact ⟨s2, rfl, f3, f4⟩
        · rw [check_frame_extended s2 hsum ha]
          exact ⟨_, rfl, f3, f4⟩
      · unfold check_frame at hr
        rw [if_neg hsum] at hr
        exact absurd hr (by simp [reset_ir_receiver])
    · rw [if_neg hc] at hr
      have hr2 : s1.receiver_state = RECEIVER_STATE_READY := hr
      rw [e2, hst] at hr2
      exact absurd hr2 (by decide)
  · rw [if_neg g] at hr
    rw [hst] at hr
    exact absurd hr (by decide)

/-- `on_new_packet_received` on a state with repeat counter 0 and an 8-bit
`TCCR1B` with `CS12` clear ends in a freshly published state. -/
theorem published_on_new_packet_received (s : Receiver)
    (h3 : s.rec_repeat = 0) (h4 : s.TCCR1B < 256) (h5 : s.TCCR1B &&& (1 <<< CS12) = 0) :
    (on_new_packet_received s).Published := by
  obtain ⟨_, _, k3, k4⟩ := clock_bits_set s.TCCR1B h4 h5
  have ho : (TIMER_COMPARE_VALUE_ONE_MS * MAX_DELAY_FOR_NEXT_REPEAT_COMMAND) % 65536 =
      TIMER_COMPARE_VALUE_ONE_MS * MAX_DELAY_FOR_NEXT_REPEAT_COMMAND := by decide
  exact ⟨h3, rfl, rfl, rfl, rfl, ho, k3, k4, or_and_self s.TIMSK1 (1 <<< OCIE1A)⟩

/-- A data bit that takes a consistent `READING` state to `READY` ends in a
freshly published state. -/
theorem published_on_data_bit (s : Receiver) (bit : Nat) (hc : s.Consistent)
    (hst : s.receiver_state = RECEIVER_STATE_READING)
    (hr : (on_data_bit s bit).receiver_state = RECEIVER_STATE_READY) :
    (on_data_bit s bit).Published := by
  obtain ⟨s1, e, e3, e4⟩ := on_data_bit_publishes s bit hst hr
  rw [e]
  apply published_on_new_packet_received
  · rw [e3]; exact hc.2.2.1 hst
  · rw [e4]; exact hc.2.2.2.1
  · rw [e4]; exact hc.2.2.2.2

/-- Any event that takes a consistent `READING` state to `READY` ends in a
freshly published state; only a data bit can do so. -/
theorem published_step (s : Receiver) (e : Event) (hc : s.Consistent)
    (hst : s.receiver_state = RECEIVER_STATE_READING)
    (hr : (step s e).receiver_state = RECEIVER_STATE_READY) :
    (step s e).Published := by
  cases e with
  | chunk pulse pause =>
    have e1 : step s (.chunk pulse pause) =
        clear_counters ((chunk_handler pulse pause).run
          { s with pulse_time_counter := pulse, pause_time_counter := pause }) := by
      show feed s pulse pause = _
      unfold feed
      rw [read_chunk_eq_run]
    rw [e1] at hr ⊢
    generalize chunk_handler pulse pause = k at hr ⊢
    cases k with
    | start_bit => exact absurd hr (by simp [Handler.run, clear_counters, on_start_bit])
    | repeat_command =>
      have e2 : on_repeat_command
          { s with pulse_time_counter := pulse, pause_time_counter := pause } =
          reset_ir_receiver
            { s with pulse_time_counter := pulse, pause_time_counter := pause } := by
        unfold on_repeat_command
        rw [if_neg]
        intro g
        rcases g.2 with g2 | g2
        · exact absurd (hst.symm.trans g2) (by decide)
        · exact absurd (hst.symm.trans g2) (by decide)
      simp only [Handler.run, e2] at hr
      exact absurd hr (by simp [clear_counters, reset_ir_receiver])
    | data_bit bit =>
      exact published_on_data_bit
        { s with pulse_time_counter := pulse, pause_time_counter := pause } bit hc hst hr
    | reset => exact absurd hr (by simp [Handler.run, clear_counters, reset_ir_receiver])
    | nothing =>
      have hr2 : s.receiver_state = RECEIVER_STATE_READY := hr
      rw [hst] at hr2
      exact absurd hr2 (by decide)
  | timer =>
    have hn : (stop_ir_timer s).receiver_state ≠ RECEIVER_STATE_READY := by
      show s.receiver_state ≠ RECEIVER_STATE_READY
      rw [hst]; decide
    have e1 : step s .timer = reset_ir_receiver (stop_ir_timer s) := by
      show TIMER1_COMPA_vect s = _
      unfold TIMER1_COMPA_vect
      simp only
      rw [if_neg hn]
    rw [e1] at hr
    exact absurd hr (by simp [reset_ir_receiver])
  | poll pkt =>
    have hn : s.receiver_state ≠ RECEIVER_STATE_READY := by rw [hst]; decide
    have e1 : step s (.poll pkt) = s := by
      show (check_new_packet s pkt).2.1 = s
      rw [check_new_packet_of_not_ready s pkt hn]
    rw [e1, hst] at hr
    exact absurd hr (by decide)

/-- C15, publication postcondition: in every state reachable from the reset
state, `rec_repeat = 0` while the receiver is `READING`; and whenever a data
bit (`on_data_bit`, or any event at all) moves the receiver from `READING` to
`READY`, the resulting state has `rec_repeat = 0`, repeat permitted,
`read_bit_counter = 0` and the timer armed for 120 ms. -/
theorem publication_postcondition (s : Receiver) (h : Reachable s) :
    (s.receiver_state = RECEIVER_STATE_READING → s.rec_repeat = 0) ∧
    (∀ bit : Nat, s.receiver_state = RECEIVER_STATE_READING →
      (on_data_bit s bit).receiver_state = RECEIVER_STATE_READY →
      (on_data_bit s bit).Published) ∧
    (∀ e : Event, s.receiver_state = RECEIVER_STATE_READING →
      (step s e).receiver_state = RECEIVER_STATE_READY →
      (step s e).Published) := by
  have hc := consistent_of_reachable s h
  exact ⟨hc.2.2.1, fun bit hst hr => published_on_data_bit s bit hc hst hr,
    fun e hst hr => published_step s e hc hst hr⟩

set_option maxRecDepth 100000 in
/-- C15 at `almost_complete`: the state is reachable and `READING`, the last
bit of the frame (a 1) makes it `READY`, and the state then has repeat
counter 0, repeat permitted, bit index 0 and the compare register at 30000
ticks. -/
theorem publication_postcondition_witness :
    Reachable almost_complete ∧
    almost_complete.receiver_state = RECEIVER_STATE_READING ∧
    (on_data_bit almost_complete 1).receiver_state = RECEIVER_STATE_READY ∧
    (on_data_bit almost_complete 1).Published ∧
    (on_data_bit almost_complete 1).OCR1A = 30000 :=
  ⟨⟨power_on, _, rfl⟩, by decide, by decide,
    (publication_postcondition almost_complete ⟨power_on, _, rfl⟩).2.1 1
      (by decide) (by decide),
    by decide⟩

/-! ### Compare value of the timer -/

/-- C21, the compare value does not overflow: with `F_CPU = 16000000` and
prescaler 64 `TIMER_COMPARE_VALUE_ONE_MS` is 250; for every 8-bit `time_ms`
the value `start_ir_timer` writes to the 16-bit compare register `OCR1A` is
`250 * time_ms` exactly, at most 63750 and so below `2^16`; and the three
phase durations give 4000 ticks for the two 16 ms windows and 30000 ticks for
the 120 ms window. -/
theorem compare_value_exact (s : Receiver) (time_ms : Nat) (h : time_ms < 256) :
    F_CPU = 16000000 ∧ TIMER_PRESCALER = 64 ∧ TIMER_COMPARE_VALUE_ONE_MS = 250 ∧
    (start_ir_timer s time_ms).OCR1A = 250 * time_ms ∧
    (start_ir_timer s time_ms).OCR1A ≤ 63750 ∧
    (start_ir_timer s time_ms).OCR1A < 65536 ∧
    (start_ir_timer s MAX_INITIAL_PULSE_TRANSMISSION_DELAY).OCR1A = 4000 ∧
    (start_ir_timer s MAX_BIT_TRANSMISSION_DELAY).OCR1A = 4000 ∧
    (start_ir_timer s MAX_DELAY_FOR_NEXT_REPEAT_COMMAND).OCR1A = 30000 := by
  have ht : TIMER_COMPARE_VALUE_ONE_MS = 250 := by decide
  have e : (start_ir_timer s time_ms).OCR1A = 250 * time_ms := by
    show (TIMER_COMPARE_VALUE_ONE_MS * time_ms) % 65536 = 250 * time_ms
    rw [ht]
    omega
  refine ⟨rfl, rfl, ht, e, ?_, ?_, ?_, ?_, ?_⟩
  · rw [e]; omega
  · rw [e]; omega
  · show (TIMER_COMPARE_VALUE_ONE_MS * MAX_INITIAL_PULSE_TRANSMISSION_DELAY) % 65536 = 4000
    decide
  · show (TIMER_COMPARE_VALUE_ONE_MS * MAX_BIT_TRANSMISSION_DELAY) % 65536 = 4000
    decide
  · show (TIMER_COMPARE_VALUE_ONE_MS * MAX_DELAY_FOR_NEXT_REPEAT_COMMAND) % 65536 = 30000
    decide

/-- C21 at the largest 8-bit duration, 255 ms, from the power-on state: the
compare register receives 63750. -/
theorem compare_value_exact_witness :
    (start_ir_timer power_on 255).OCR1A = 63750 ∧
    (start_ir_timer power_on 255).OCR1A < 65536 :=
  have h := compare_value_exact power_on 255 (by decide)
  ⟨h.2.2.2.1.trans (by decide), h.2.2.2.2.2.1⟩

/-! ### The older variant on a standard frame -/

namespace IR_Reciever

/-- The start symbol puts the older decoder at bit 0 of an empty frame. -/
theorem old_feed_start (s : State) :
    feed s 2250 1125 = reading_at s 0 0 0 0 0 2250 1125 := by
  have f1 : gt_ms 2250 7 1 = true := by decide
  have f2 : lt_ms 2250 11 1 = true := by decide
  have f3 : gt_ms 1125 32 10 = true := by decide
  have f4 : lt_ms 1125 6 1 = true := by decide
  simp [feed, read_chunk, f1, f2, f3, f4, on_start_bit, reset_packet, reading_at]

/-- A data bit is handled by the older `on_data_bit`, with argument 1 for the
long pause and 0 for the short one. -/
theorem old_feed_bit_eq (s : State) (bit : Bool) :
    feed_bit s bit =
      on_data_bit
        { s with pulse_time_counter := 140, pause_time_counter := if bit then 422 else 140 }
        (if bit then 1 else 0) := by
  have f1 : gt_ms 140 7 1 = false := by decide
  have f2 : gt_ms 140 36 100 = true := by decide
  have f3 : lt_ms 140 76 100 = true := by decide
  have f4 : gt_ms 422 15 10 = true := by decide
  have f5 : lt_ms 422 19 10 = true := by decide
  have f6 : gt_ms 140 15 10 = false := by decide
  cases bit
  · simp [feed_bit, feed, read_chunk, f1, f2, f3, f6]
  · simp [feed_bit, feed, read_chunk, f1, f2, f3, f4, f5]

/-- One data bit before the last in the older decoder: the bit goes into the
packet member its index selects and the index advances. -/
theorem old_feed_bit_reading_at (base : State) (k a b c d pulse pause : Nat) (bit : Bool)
    (hk : k < 31) :
    feed_bit (reading_at base k a b c d pulse pause) bit =
      reading_at base (k + 1)
        (if k < 8 then set_bit a k bit else a)
        (if 8 ≤ k ∧ k < 16 then set_bit b (k - 8) bit else b)
        (if 16 ≤ k ∧ k < 24 then set_bit c (k - 16) bit else c)
        (if 24 ≤ k then set_bit d (k - 24) bit else d)
        140 (if bit then 422 else 140) := by
  have h1 : k < 32 := by omega
  have h2 : (k + 1) % 256 = k + 1 := by omega
  have h3 : k + 1 ≠ 32 := by omega
  cases bit
  · simp [old_feed_bit_eq, on_data_bit, reading_at, set_bit, h1, h2, h3]
  · by_cases c1 : k < 8
    · have c2 : ¬ 8 ≤ k := by omega
      have c3 : ¬ 16 ≤ k := by omega
      have c4 : ¬ 24 ≤ k := by omega
      simp [old_feed_bit_eq, on_data_bit, store_bit, reading_at, set_bit, h1, h2, h3,
        c1, c2, c3, c4]
    · by_cases c2 : k < 16
      · have c3 : ¬ 16 ≤ k := by omega
        have c4 : ¬ 24 ≤ k := by omega
        have c5 : 8 ≤ k := by omega
        simp [old_feed_bit_eq, on_data_bit, store_bit, reading_at, set_bit, h1, h2, h3,
          c1, c2, c3, c4, c5]
      · by_cases c3 : k < 24
        · have c4 : ¬ 24 ≤ k := by omega
          have c5 : 8 ≤ k := by omega
          have c6 : 16 ≤ k := by omega
          simp [old_feed_bit_eq, on_data_bit, store_bit, reading_at, set_bit, h1, h2, h3,
            c1, c2, c3, c4, c5, c6]
        · have c5 : 8 ≤ k := by omega
          have c6 : 16 ≤ k := by omega
          have c7 : 24 ≤ k := by omega
          simp [old_feed_bit_eq, on_data_bit, store_bit, reading_at, set_bit, h1, h2, h3,
            c1, c2, c3, c5, c6, c7]

/-- The last data bit of a frame in the older decoder, when both byte pairs
add up to `0xFF`: the packet is published. -/
theorem old_feed_bit_last (base : State) (a b c d pulse pause : Nat) (bit : Bool)
    (ha : a + b = 0xFF) (hc : c + set_bit d 7 bit = 0xFF) :
    feed_bit (reading_at base 31 a b c d pulse pause) bit =
      on_new_packet_received
        (reading_at base 32 a b c (set_bit d 7 bit) 140 (if bit then 422 else 140)) := by
  cases bit
  · have hc0 : c + d = 255 := hc
    simp [old_feed_bit_eq, on_data_bit, reading_at, set_bit, ha, hc0]
  · have hc1 : c + (d ||| 128) % 256 = 255 := hc
    simp [old_feed_bit_eq, on_data_bit, store_bit, reading_at, set_bit, ha, hc1]

/-- A start symbol followed by the 32 bits of four bytes whose pairs add up to
`0xFF`, in the older decoder: the bytes are assembled into the packet and the
packet is published. -/
theorem old_feed_frame_eq (s : State) (b0 b1 b2 b3 : Nat)
    (ha : assemble b0 + assemble b1 = 0xFF) (hc : assemble b2 + assemble b3 = 0xFF) :
    feed_frame s b0 b1 b2 b3 =
      on_new_packet_received
        (reading_at s 32 (assemble b0) (assemble b1) (assemble b2) (assemble b3)
          140 (if b3.testBit 7 then 422 else 140)) := by
  simp only [feed_frame, frame_bits, byte_bits, feed_bits, List.cons_append, List.nil_append,
    List.foldl_cons, List.foldl_nil, old_feed_start]
  simp only [old_feed_bit_reading_at, Nat.reduceLT, Nat.reduceLeDiff, Nat.reduceAdd,
    Nat.reduceSub, if_true, if_false, and_true, and_false, true_and, false_and,
    Nat.lt_irrefl, Nat.le_refl]
  unfold assemble at ha hc ⊢
  rw [old_feed_bit_last _ _ _ _ _ _ _ _ ha hc]

/-- The older decoder run on the standard frame of address `a` and command
`c`: from its reset state, the start symbol and the 32 bits of `a`, `~a`,
`c`, `~c`, and then `check_new_packet`. -/
def poll_standard_frame (s0 : State) (pkt : IR_Packet) (a c : Nat) :
    Nat × State × IR_Packet :=
  check_new_packet (feed_frame (reset_IR_receiver s0) a (complement a) c (complement c)) pkt

/-- The older decoder on a standard frame: the poll returns 1 and hands out
the four frame bytes and repeat count 0. -/
theorem old_poll_standard_frame (s0 : State) (pkt : IR_Packet) (a c : Nat)
    (ha : a < 256) (hc : c < 256) :
    (poll_standard_frame s0 pkt a c).1 = 1 ∧
    (poll_standard_frame s0 pkt a c).2.2 =
      { addr := a, addr_inv := complement a, command := c, command_inv := complement c,
        repeat_ := 0 } := by
  have hca : complement a < 256 := by rw [complement_eq a ha]; omega
  have hcc : complement c < 256 := by rw [complement_eq c hc]; omega
  have e := old_feed_frame_eq (reset_IR_receiver s0) a (complement a) c (complement c)
    (by rw [assemble_eq a ha, assemble_eq _ hca, complement_eq a ha]; omega)
    (by rw [assemble_eq c hc, assemble_eq _ hcc, complement_eq c hc]; omega)
  rw [assemble_eq a ha, assemble_eq c hc, assemble_eq _ hca, assemble_eq _ hcc] at e
  unfold poll_standard_frame
  rw [e]
  exact ⟨rfl, rfl⟩

end IR_Reciever

/-! ### The two variants agree on standard frames -/

/-- The decoder of `IR_Receiver.cpp` run on the standard frame of address `a`
and command `c`: from its reset state, the start symbol and the 32 bits of
`a`, `~a`, `c`, `~c`, and then `check_new_packet`. -/
def poll_standard_frame (s0 : Receiver) (pkt : IR_Packet) (a c : Nat) :
    Nat × Receiver × IR_Packet :=
  check_new_packet (feed_frame (reset_ir_receiver s0) a (complement a) c (complement c)) pkt

/-- The decoder of `IR_Receiver.cpp` on a standard frame: the poll returns 1
and writes `a`, `c` and repeat count 0 into the caller's packet. -/
theorem new_poll_standard_frame (s0 : Receiver) (pkt : IR_Packet) (a c : Nat)
    (ha : a < 256) (hc : c < 256) :
    (poll_standard_frame s0 pkt a c).1 = 1 ∧
    (poll_standard_frame s0 pkt a c).2.2 =
      { pkt with addr := a, command := c, repeat_ := 0 } := by
  have hca : complement a < 256 := by rw [complement_eq a ha]; omega
  have hcc : complement c < 256 := by rw [complement_eq c hc]; omega
  unfold poll_standard_frame
  rw [feed_frame_eq, assemble_eq a ha, assemble_eq c hc, assemble_eq _ hca, assemble_eq _ hcc,
    check_frame_standard _ (by show c + complement c = 255; rw [complement_eq c hc]; omega)
      (by show a + complement a = 255; rw [complement_eq a ha]; omega),
    check_new_packet_of_ready _ _ rfl]
  exact ⟨rfl, rfl⟩

/-- C22, the two variants agree on standard frames: for all bytes `a` and
`c`, with each variant started from its reset state and fed the start symbol
and the 32 bits of `a`, `~a`, `c`, `~c` (least significant bit first) through
its own `read_chunk`, `check_new_packet` of `IR_Reciever.cpp` and
`check_new_packet` of `IR_Receiver.cpp` both return 1, and both packets hold
`addr = a`, `command = c` and `repeat = 0`. -/
theorem variants_agree_on_standard_frames (s0 : IR_Reciever.State) (t0 : Receiver)
    (pkt_old pkt_new : IR_Packet) (a c : Nat) (ha : a < 256) (hc : c < 256) :
    (IR_Reciever.poll_standard_frame s0 pkt_old a c).1 = 1 ∧
    (poll_standard_frame t0 pkt_new a c).1 = 1 ∧
    (IR_Reciever.poll_standard_frame s0 pkt_old a c).2.2.addr = a ∧
    (poll_standard_frame t0 pkt_new a c).2.2.addr = a ∧
    (IR_Reciever.poll_standard_frame s0 pkt_old a c).2.2.command = c ∧
    (poll_standard_frame t0 pkt_new a c).2.2.command = c ∧
    (IR_Reciever.poll_standard_frame s0 pkt_old a c).2.2.repeat_ = 0 ∧
    (poll_standard_frame t0 pkt_new a c).2.2.repeat_ = 0 := by
  obtain ⟨o1, o2⟩ := IR_Reciever.old_poll_standard_frame s0 pkt_old a c ha hc
  obtain ⟨n1, n2⟩ := new_poll_standard_frame t0 pkt_new a c ha hc
  rw [o2, n2]
  exact ⟨o1, n1, rfl, rfl, rfl, rfl, rfl, rfl⟩

/-- C22 for address `0x34` and command `0x10`, both variants started from
their power-on variables: both polls return 1 with address `0x34`, command
`0x10` and repeat count 0. -/
theorem variants_agree_on_standard_frames_witness :
    (IR_Reciever.poll_standard_frame IR_Reciever.power_on stale_packet 0x34 0x10).1 = 1 ∧
    (poll_standard_frame power_on stale_packet 0x34 0x10).1 = 1 ∧
    (IR_Reciever.poll_standard_frame IR_Reciever.power_on stale_packet 0x34 0x10).2.2.addr =
      (poll_standard_frame power_on stale_packet 0x34 0x10).2.2.addr ∧
    (IR_Reciever.poll_standard_frame IR_Reciever.power_on stale_packet 0x34 0x10).2.2.command =
      (poll_standard_frame power_on stale_packet 0x34 0x10).2.2.command ∧
    (IR_Reciever.poll_standard_frame IR_Reciever.power_on stale_packet 0x34 0x10).2.2.repeat_ =
      (poll_standard_frame power_on stale_packet 0x34 0x10).2.2.repeat_ :=
  have h := variants_agree_on_standard_frames IR_Reciever.power_on power_on
    stale_packet stale_packet 0x34 0x10 (by decide) (by decide)
  ⟨h.1, h.2.1, h.2.2.1.trans h.2.2.2.1.symm, h.2.2.2.2.1.trans h.2.2.2.2.2.1.symm,
    h.2.2.2.2.2.2.1.trans h.2.2.2.2.2.2.2.symm⟩

end IRReceiver
